import Mathlib

/-! decombine/contract: network registry and token store.

A shallow embedding of the command handlers in `cmd/network.go`, `cmd/config.go`,
`cmd/init.go`, `cmd/login.go`, `cmd/logout.go` and `cmd/validate.go`.

* The process environment is a `World`: the home directory, the path returned by
  `viper.ConfigFileUsed()`, the values stored with `viper.Set`, and the file system as a
  map from path to content.
* A handler that returns a Go `error` is a function `World → Option Error × World`
  (`none` is `nil`); a handler that returns a value and an `error` is an `Except`.
* The YAML and JSON libraries are parameters (`YAML`, `JSON`): a pair of functions that may
  fail.  Nothing is assumed about them unless a theorem says so.
* Terminal output (`fmt.Printf`) is not part of the state.
-/

set_option autoImplicit false

namespace Contract

/-! ## Data model -/

/-- Go `error` values that the handlers can return. -/
inductive Error where
  /-- The value of `fmt.Errorf(msg)` with a constant or formatted message. -/
  | errorf (msg : String)
  /-- The value of `fmt.Errorf(msg + ": %w", err)`. -/
  | wrap (msg : String) (err : Error)
  /-- A `*fs.PathError` of package `os`: the failed operation and the path. -/
  | path (op : String) (name : String)
  /-- An error of the YAML or JSON library. -/
  | codec (msg : String)
  /-- The error of `os.UserHomeDir` when the home directory is not defined. -/
  | homeDir
  deriving DecidableEq, Repr

/-- Results of type `Except` can be compared when both sides can. -/
instance instDecidableEqExcept {ε α : Type} [DecidableEq ε] [DecidableEq α] :
    DecidableEq (Except ε α)
  | .ok a, .ok b => if h : a = b then isTrue (by rw [h]) else isFalse (fun h1 => h (by cases h1; rfl))
  | .error a, .error b =>
    if h : a = b then isTrue (by rw [h]) else isFalse (fun h1 => h (by cases h1; rfl))
  | .ok _, .error _ => isFalse (fun h => by cases h)
  | .error _, .ok _ => isFalse (fun h => by cases h)

/-- Modelled from the spec: the record `slc.Network` of the external package
`github.com/decombine/slc`, with the seven fields of section 3 (all of them strings, as the
composite literals of `root.go` and `network.go` use them). -/
structure Network where
  Name : String := ""
  API : String := ""
  URL : String := ""
  ClientID : String := ""
  Domain : String := ""
  Issuer : String := ""
  DiscoveryEndpoint : String := ""
  deriving DecidableEq, Repr

/-- The configuration document, `ContractCLIConfig` of `root.go`. -/
structure ContractCLIConfig where
  Language : String := ""
  DefaultContractFileType : String := ""
  DefaultNetwork : String := ""
  Networks : List Network := []
  deriving DecidableEq, Repr

/-- Modelled from the spec: the record `oidc.AccessTokenResponse` of the external package
`github.com/zitadel/oidc`, the token of section 3 (access token, token type, refresh token,
expiry, ID token). -/
structure AccessTokenResponse where
  AccessToken : String := ""
  TokenType : String := ""
  RefreshToken : String := ""
  ExpiresIn : Nat := 0
  IDToken : String := ""
  deriving DecidableEq, Repr

/-- The built-in network, `DecombineNetwork` of `root.go` (its `Domain` is not set). -/
def DecombineNetwork : Network :=
  { Name := "decombine"
    API := "https://api.decombine.com"
    URL := "https://decombine.com"
    ClientID := "314914854450233349"
    Issuer := "https://auth.decombine.com"
    DiscoveryEndpoint := "https://auth.decombine.com/.well-known/openid-configuration" }

/-- The library `github.com/goccy/go-yaml` at type `ContractCLIConfig`. -/
structure YAML where
  Marshal : ContractCLIConfig → Except Error String
  Unmarshal : String → Except Error ContractCLIConfig

/-- The library `encoding/json` at type `oidc.AccessTokenResponse`. -/
structure JSON where
  Marshal : AccessTokenResponse → Except Error String
  Unmarshal : String → Except Error AccessTokenResponse

/-- A value stored in viper with `viper.Set`. -/
inductive ViperValue where
  | network (n : Network)
  | string (s : String)
  deriving DecidableEq, Repr

/-- The environment of one CLI process. -/
structure World where
  /-- The home directory, `none` when `os.UserHomeDir` fails. -/
  home : Option String
  /-- The value of `viper.ConfigFileUsed()`, fixed by `initConfig` at start-up. -/
  configFileUsed : String
  /-- The overrides recorded by `viper.Set`, most recent first. -/
  viperSet : List (String × ViperValue)
  /-- The file system: the content of each existing file. -/
  files : String → Option String
  /-- Paths that cannot be created or opened for writing. -/
  readOnly : String → Bool

/-- The world in which the file at `path` has content `data`. -/
def World.put (w : World) (path data : String) : World :=
  { w with files := fun p => if p = path then some data else w.files p }

/-- The world in which no file exists at `path`. -/
def World.erase (w : World) (path : String) : World :=
  { w with files := fun p => if p = path then none else w.files p }

/-! ## Package `os` and viper -/

namespace os

/-- The Go function `os.UserHomeDir`. -/
def UserHomeDir (w : World) : Except Error String :=
  match w.home with
  | some home => .ok home
  | none => .error .homeDir

/-- The Go function `os.ReadFile`: the content of the file, an error when there is none. -/
def ReadFile (path : String) (w : World) : Except Error String :=
  match w.files path with
  | some data => .ok data
  | none => .error (.path "open" path)

/-- The Go function `os.Open` followed by `io.ReadAll` on the handle. -/
def Open (path : String) (w : World) : Except Error String :=
  match w.files path with
  | some data => .ok data
  | none => .error (.path "open" path)

/-- The Go function `os.WriteFile`: replaces the content of the file, creating it. -/
def WriteFile (path data : String) (w : World) : Option Error × World :=
  if w.readOnly path then (some (.path "open" path), w) else (none, w.put path data)

/-- The Go function `os.Create`: creates the file or truncates it to the empty content. -/
def Create (path : String) (w : World) : Option Error × World :=
  if w.readOnly path then (some (.path "open" path), w) else (none, w.put path "")

/-- The method `(*os.File).Write` on a handle opened on `path`: appends `data`. -/
def Write (path data : String) (w : World) : Option Error × World :=
  match w.files path with
  | some old => (none, w.put path (old ++ data))
  | none => (some (.path "write" path), w)

/-- The Go function `os.MkdirAll`: directories are implicit in the path map, nothing to do. -/
def MkdirAll (_path : String) (w : World) : Option Error × World :=
  (none, w)

/-- The Go function `os.Remove`: deletes the file, an error when there is none. -/
def Remove (path : String) (w : World) : Option Error × World :=
  match w.files path with
  | some _ => (none, w.erase path)
  | none => (some (.path "remove" path), w)

end os

namespace viper

/-- The Go function `viper.ConfigFileUsed`. -/
def ConfigFileUsed (w : World) : String :=
  w.configFileUsed

/-- The Go function `viper.Set`. -/
def Set (key : String) (value : ViperValue) (w : World) : World :=
  { w with viperSet := (key, value) :: w.viperSet }

end viper

/-! ## `cmd/config.go` -/

/-- The function `Config` of `config.go`. -/
def Config (yaml : YAML) (w : World) : Except Error ContractCLIConfig :=
  let cfg := viper.ConfigFileUsed w
  if cfg = "" then
    .error (.errorf "no config file found")
  else
    match os.ReadFile cfg w with
    | .error err => .error (.wrap "error reading config file" err)
    | .ok file =>
      match yaml.Unmarshal file with
      | .error err => .error (.wrap "error unmarshalling config file" err)
      | .ok config => .ok config

/-! ## `cmd/network.go` -/

/-- The function `Networks` of `network.go`. -/
def Networks (yaml : YAML) (w : World) : List Network :=
  let cfg := viper.ConfigFileUsed w
  if cfg = "" then
    [DecombineNetwork]
  else
    match os.ReadFile cfg w with
    | .error _ => [DecombineNetwork]
    | .ok file =>
      match yaml.Unmarshal file with
      | .error _ => [DecombineNetwork]
      | .ok config => config.Networks

/-- The function `checkNetworkValues` of `network.go`. -/
def checkNetworkValues (name api url clientID domain oidc : String) : Option Error :=
  if name = "" then some (.errorf "name is required")
  else if api = "" then some (.errorf "api is required")
  else if url = "" then some (.errorf "url is required")
  else if clientID = "" then some (.errorf "client id is required")
  else if domain = "" then some (.errorf "domain is required")
  else if oidc = "" then some (.errorf "discovery endpoint is required")
  else none

/-- The tail shared by `addNetwork` (lines 231-253) and `removeNetworkExecute` (lines 86-109):
read the configuration file again, replace its network list, write it back. -/
def writeNetworks (yaml : YAML) (networks : List Network) (w : World) : Option Error × World :=
  let cfg := viper.ConfigFileUsed w
  if cfg = "" then
    (some (.errorf "no config file found"), w)
  else
    match os.ReadFile cfg w with
    | .error err => (some err, w)
    | .ok file =>
      match yaml.Unmarshal file with
      | .error err => (some err, w)
      | .ok config =>
        let config := { config with Networks := networks }
        match yaml.Marshal config with
        | .error err => (some err, w)
        | .ok data => os.WriteFile cfg data w

/-- The function `addNetwork` of `network.go`. -/
def addNetwork (yaml : YAML) (name api url clientID domain oidc : String) (w : World) :
    Option Error × World :=
  match checkNetworkValues name api url clientID domain oidc with
  | some err => (some err, w)
  | none =>
    let networks := Networks yaml w
    let networks := networks ++
      [{ Name := name
         API := api
         URL := url
         ClientID := clientID
         Domain := domain
         DiscoveryEndpoint := oidc }]
    writeNetworks yaml networks w

/-- The loop of `removeNetworkExecute` (lines 73-84) from index `i`, where `rest` is
`networks[i:]`: the outcome is an early return with an error, or the value of `networks`
after the loop. -/
def removeLoop (name : String) (networks : List Network) :
    Nat → List Network → Except Error (List Network)
  | _, [] => .ok networks
  | i, n :: rest =>
    if name = "decombine" then
      .error (.errorf "cannot remove default network")
    else if n.Name = name then
      .ok (networks.take i ++ networks.drop (i + 1))
    else
      removeLoop name networks (i + 1) rest

/-- The function `removeNetworkExecute` of `network.go`; `name` is the value of the
`--network` flag. -/
def removeNetworkExecute (yaml : YAML) (name : String) (w : World) : Option Error × World :=
  if name = "" then
    (some (.errorf "network name is required"), w)
  else
    let networks := Networks yaml w
    match removeLoop name networks 0 networks with
    | .error err => (some err, w)
    | .ok networks => writeNetworks yaml networks w

/-- The function `UpdateConfig` of `network.go`. -/
def UpdateConfig (yaml : YAML) (path : String) (config : ContractCLIConfig) (w : World) :
    Option Error × World :=
  match os.ReadFile path w with
  | .error _ => (some (.errorf "error reading config file"), w)
  | .ok _ =>
    match yaml.Marshal config with
    | .error err => (some err, w)
    | .ok data => os.WriteFile path data w

/-- The loop of `setNetworkExecute` (lines 152-169) over the remaining networks. -/
def setNetworkLoop (yaml : YAML) (name : String) : List Network → World → Option Error × World
  | [], w => (some (.errorf ("network " ++ name ++ " not found")), w)
  | n :: rest, w =>
    if n.Name = name then
      let w := viper.Set "defaultNetwork" (.network n) w
      let w := viper.Set "network" (.string n.Name) w
      match Config yaml w with
      | .error err => (some err, w)
      | .ok cfg =>
        let cfg := { cfg with DefaultNetwork := n.Name }
        UpdateConfig yaml (viper.ConfigFileUsed w) cfg w
    else
      setNetworkLoop yaml name rest w

/-- The function `setNetworkExecute` of `network.go`; `name` is the value of the
`--network` flag. -/
def setNetworkExecute (yaml : YAML) (name : String) (w : World) : Option Error × World :=
  if name = "" then
    (some (.errorf "network name is required"), w)
  else
    setNetworkLoop yaml name (Networks yaml w) w

/-! ## `cmd/init.go` -/

/-- The function `makeYAMLConfigFile` of `init.go`. -/
def makeYAMLConfigFile (yaml : YAML) (path : String) (w : World) : Option Error × World :=
  let path := if path = "" then "contract.yaml" else path
  let networks : List Network := [] ++ [DecombineNetwork]
  let newConfig : ContractCLIConfig :=
    { Language := "en"
      DefaultContractFileType := "json"
      DefaultNetwork := "decombine"
      Networks := networks }
  match os.Create path w with
  | (some err, w) => (some err, w)
  | (none, w) =>
    match yaml.Marshal newConfig with
    | .error err => (some err, w)
    | .ok data => os.Write path data w

/-! ## `cmd/login.go` and `cmd/logout.go`: the token store -/

/-- The function `storeResponse` of `login.go`. -/
def storeResponse (json : JSON) (name : String) (token : AccessTokenResponse) (w : World) :
    Option Error × World :=
  match os.UserHomeDir w with
  | .error err => (some err, w)
  | .ok home =>
    let tokenDir := home ++ "/.config/contract/." ++ name ++ "/"
    match os.MkdirAll tokenDir w with
    | (some err, w) => (some err, w)
    | (none, w) =>
      let tokenPath := tokenDir ++ "token.json"
      match os.Create tokenPath w with
      | (some err, w) => (some err, w)
      | (none, w) =>
        match json.Marshal token with
        | .error err => (some err, w)
        | .ok resp => os.Write tokenPath resp w

/-- The function `unmarshalToken` of `login.go`. -/
def unmarshalToken (json : JSON) (name : String) (w : World) : Except Error AccessTokenResponse :=
  match os.UserHomeDir w with
  | .error err => .error err
  | .ok home =>
    let tokenDir := home ++ "/.config/contract/." ++ name ++ "/"
    let tokenPath := tokenDir ++ "token.json"
    match os.Open tokenPath w with
    | .error err => .error err
    | .ok b =>
      match json.Unmarshal b with
      | .error err => .error err
      | .ok t => .ok t

/-- The function `deleteToken` of `logout.go`. -/
def deleteToken (name : String) (w : World) : Option Error × World :=
  match os.UserHomeDir w with
  | .error err => (some err, w)
  | .ok home =>
    let tokenDir := home ++ "/.config/." ++ name ++ "/"
    let tokenPath := tokenDir ++ "token"
    os.Remove tokenPath w

/-! ## `cmd/login.go`: resolving a network and the device flow -/

/-- The loop of `networkDetails` (lines 97-101) over the remaining networks: the first entry
with the name, or the not-found error after the loop. -/
def networkDetailsLoop (name : String) : List Network → Except Error Network
  | [] => .error (.errorf ("network " ++ name ++ " not found"))
  | n :: rest => if n.Name = name then .ok n else networkDetailsLoop name rest

/-- The function `networkDetails` of `login.go`. -/
def networkDetails (yaml : YAML) (name : String) (w : World) : Except Error Network :=
  if name = "" then
    .ok DecombineNetwork
  else
    match Config yaml w with
    | .error err => .error err
    | .ok config =>
      if config.Networks.length = 0 then
        .error (.errorf "no networks configured. please configure a network first")
      else
        networkDetailsLoop name config.Networks

/-- The loop of `defaultNetwork` (lines 111-116) over the remaining networks. -/
def defaultNetworkLoop (defaultName : String) : List Network → Except Error Network
  | [] => .error (.errorf "default network not found")
  | n :: rest => if n.Name = defaultName then .ok n else defaultNetworkLoop defaultName rest

/-- The function `defaultNetwork` of `login.go`. -/
def defaultNetwork (yaml : YAML) (w : World) : Except Error Network :=
  match Config yaml w with
  | .error err => .error err
  | .ok cfg => defaultNetworkLoop cfg.DefaultNetwork cfg.Networks

/-- The variable `scopes` of `login.go`. -/
def scopes : List String := ["openid", "offline_access", "email", "profile"]

/-- Modelled from the spec: the relying party of the external package
`github.com/zitadel/oidc` (`rp.RelyingParty`), the context of section 4.4 step 1: the issuer,
the client identifier and the scopes it was built with. -/
structure RelyingParty where
  Issuer : String := ""
  ClientID : String := ""
  Scopes : List String := []
  deriving DecidableEq, Repr

/-- Modelled from the spec: the answer to the device authorization request
(`oidc.DeviceAuthorizationResponse` of the external package), section 4.4 step 2 and section 6:
device code, user code, verification URI, expiry and polling interval in seconds. -/
structure DeviceAuthorizationResponse where
  DeviceCode : String := ""
  UserCode : String := ""
  VerificationURI : String := ""
  ExpiresIn : Int := 0
  Interval : Int := 0
  deriving DecidableEq, Repr

/-- The three functions of package `rp` of `github.com/zitadel/oidc` that `loginDeviceFlow`
calls.  Cancellation by the interrupt signal reaches them through the context and shows as an
error of the call in progress. -/
structure RP where
  /-- The Go function `rp.NewRelyingPartyOIDC(ctx, issuer, clientID, clientSecret, redirectURI,
  scopes)`. -/
  NewRelyingPartyOIDC : (issuer clientID clientSecret redirectURI : String) →
    (scopes : List String) → Except Error RelyingParty
  /-- The Go function `rp.DeviceAuthorization(ctx, scopes, provider, nil)`. -/
  DeviceAuthorization : (scopes : List String) → RelyingParty →
    Except Error DeviceAuthorizationResponse
  /-- The Go function `rp.DeviceAccessToken(ctx, deviceCode, interval, provider)`, the interval
  in nanoseconds. -/
  DeviceAccessToken : (deviceCode : String) → (interval : Int) → RelyingParty →
    Except Error AccessTokenResponse

/-- A 64-bit signed integer: the value of `x` after wrap-around. -/
def int64 (x : Int) : Int :=
  (x + 9223372036854775808) % 18446744073709551616 - 9223372036854775808

namespace time

/-- The Go constant `time.Second`, in nanoseconds. -/
def Second : Int := 1000000000

/-- The Go conversion `time.Duration(n)` of an `int`. -/
def Duration (n : Int) : Int := int64 n

end time

/-- The function `loginDeviceFlow` of `login.go`. -/
def loginDeviceFlow (yaml : YAML) (rp : RP) (name : String) (w : World) :
    Except Error AccessTokenResponse :=
  match networkDetails yaml name w with
  | .error err => .error err
  | .ok network =>
    match rp.NewRelyingPartyOIDC network.Issuer network.ClientID "" "" scopes with
    | .error err => .error err
    | .ok provider =>
      match rp.DeviceAuthorization scopes provider with
      | .error err => .error err
      | .ok resp =>
        match rp.DeviceAccessToken resp.DeviceCode
            (int64 (time.Duration resp.Interval * time.Second)) provider with
        | .error err => .error err
        | .ok token => .ok token

/-- The function `loginExecute` of `login.go`; `deviceFlow` and `name` are the values of the
flags `--device-flow` and `--network`. -/
def loginExecute (yaml : YAML) (json : JSON) (rp : RP) (deviceFlow : Bool) (name : String)
    (w : World) : Option Error × World :=
  if name = "" then
    match Config yaml w with
    | .error err => (some err, w)
    | .ok _ => (none, w)
  else if deviceFlow then
    match loginDeviceFlow yaml rp name w with
    | .error err => (some err, w)
    | .ok token =>
      match storeResponse json name token w with
      | (some err, w) => (some err, w)
      | (none, w) => (none, w)
  else
    (none, w)

/-! ## `cmd/validate.go` -/

namespace strings

/-- The Go function `strings.HasPrefix`. -/
def HasPrefix (s pre : String) : Bool :=
  pre.data.isPrefixOf s.data

/-- The characters of `s` without the leading characters that belong to `cutset`. -/
def trimLeft (cutset : List Char) : List Char → List Char
  | [] => []
  | c :: cs => if c ∈ cutset then trimLeft cutset cs else c :: cs

/-- The Go function `strings.Trim`: removes the leading and trailing characters of `cutset`. -/
def Trim (s cutset : String) : String :=
  ⟨(trimLeft cutset.data (trimLeft cutset.data s.data).reverse).reverse⟩

/-- The pieces of a text between the occurrences of the character `sep`. -/
def splitChars (sep : Char) : List Char → List (List Char)
  | [] => [[]]
  | c :: cs =>
    if c = sep then
      [] :: splitChars sep cs
    else
      match splitChars sep cs with
      | piece :: pieces => (c :: piece) :: pieces
      | [] => [[c]]

/-- The Go function `strings.Split` with a separator of one character. -/
def Split (s : String) (sep : Char) : List String :=
  (splitChars sep s.data).map String.mk

end strings

/-- The method `(*bufio.Reader).ReadString(delim)` on the characters still to read: the text up
to the first `delim`, included, or all of it when there is none. -/
def ReadString (delim : Char) : List Char → List Char
  | [] => []
  | c :: cs => if c = delim then [c] else c :: ReadString delim cs

/-- What the `validate` command does, in order: the calls of the two validation functions and
the lines it prints. -/
inductive ValidateEvent where
  /-- The line printed when `getContractSource` fails, with the text it names. -/
  | sourceError (input : String) (err : Error)
  /-- A call of `validateFSContract`. -/
  | validateFS (path : String)
  /-- A call of `validateURLContract`. -/
  | validateURL (url : String)
  /-- The line `Stdin is not nil`. -/
  | stdinNotNil
  deriving DecidableEq, Repr

/-- The variable `ErrSourceNotSupported` of `validate.go`. -/
def ErrSourceNotSupported : Error := .errorf "source type not supported"

/-- The function `getContractSource` of `validate.go`. -/
def getContractSource (source : String) (w : World) : Except Error String :=
  if source = "" then
    .error ErrSourceNotSupported
  else if strings.HasPrefix source "http" then
    .ok "url"
  else
    match os.Open source w with
    | .error err => .error err
    | .ok _ => .ok "fs"

/-- The function `selectValidationStrategy` of `validate.go`, with the bodies of
`validateFSContract` and `validateURLContract`. -/
def selectValidationStrategy (source path : String) : List ValidateEvent :=
  if source = "fs" then [.validateFS path]
  else if source = "url" then [.validateURL path]
  else []

/-- The statements that `validateCmd.Run` applies to one input (lines 48-52, 60-64 and 70-74):
classify it, print the error if there is one, and validate it according to its class. -/
def validateInput (c : String) (w : World) : List ValidateEvent :=
  match getContractSource c w with
  | .error err => [.sourceError c err] ++ selectValidationStrategy "" c
  | .ok s => selectValidationStrategy s c

/-- The loop of `validateCmd.Run` over the positional arguments (lines 47-53). -/
def validateArgsLoop (w : World) : List String → List ValidateEvent
  | [] => []
  | c :: rest => validateInput c w ++ validateArgsLoop w rest

/-- The loop of `validateCmd.Run` over the values of `--contracts` (lines 69-76): the events,
and whether the function has returned.  The `return` of line 75 is the last statement of the
loop body. -/
def validateMultiLoop (w : World) : List String → List ValidateEvent × Bool
  | [] => ([], false)
  | c :: _ => (validateInput c w, true)

/-- The loop of `validateCmd.Run` over the pieces read from standard input (lines 93-108). -/
def validatePiecesLoop (w : World) : List String → List ValidateEvent
  | [] => []
  | piece :: rest =>
    if strings.HasPrefix piece "-" then
      validatePiecesLoop w rest
    else
      match getContractSource piece w with
      | .error err => [.sourceError "" err]
      | .ok s => selectValidationStrategy s piece ++ validatePiecesLoop w rest

/-- The function `validateCmd.Run` of `validate.go`; `single` and `multi` are the values of the
flags `--contract` and `--contracts`, `args` the positional arguments and `stdin` the text on
standard input. -/
def validateRun (single : String) (multi args : List String) (stdin : String) (w : World) :
    List ValidateEvent :=
  if single = "" ∧ multi.length = 0 ∧ args.length > 0 then
    validateArgsLoop w args
  else if single ≠ "" then
    validateInput single w
  else
    let multiResult := if multi.length > 0 then validateMultiLoop w multi else ([], false)
    if multiResult.2 then
      multiResult.1
    else
      let text := String.mk (ReadString '\n' stdin.data)
      let text := strings.Trim text "\r\n"
      let cmdPieces := strings.Split text ' '
      multiResult.1 ++ [.stdinNotNil] ++ validatePiecesLoop w cmdPieces

/-! ## The polling of the token endpoint -/

/-- What the token endpoint answers to one poll. -/
inductive PollAnswer where
  /-- The error code authorization pending. -/
  | pending
  /-- A valid token set. -/
  | token (t : AccessTokenResponse)
  /-- Denial, expiry of the device code, or another terminal error. -/
  | failure (err : Error)
  deriving DecidableEq, Repr

/-- Modelled from the spec: the polling loop of `rp.DeviceAccessToken` of the external package
`github.com/zitadel/oidc`, which is not part of the repository; section 4.4, steps 3 to 6.  The
authenticator polls at once; an answer authorization pending re-arms the wait of the interval
and retries; a token ends the loop with that token; any other answer ends it with the error.
`endpoint k` is the answer to poll number `k` (from 0), the clock counts nanoseconds and a wait
that is not positive does not move it.  The result comes with the times of the polls, and is
`none` while the loop is still running when the fuel is spent. -/
def pollDeviceAccessToken (endpoint : Nat → PollAnswer) (interval : Int) :
    (fuel attempt : Nat) → (clock : Int) →
      Option (Except Error AccessTokenResponse × List Int)
  | 0, _, _ => none
  | fuel + 1, attempt, clock =>
    match endpoint attempt with
    | .token t => some (.ok t, [clock])
    | .failure err => some (.error err, [clock])
    | .pending =>
      match pollDeviceAccessToken endpoint interval fuel (attempt + 1)
          (clock + max interval 0) with
      | some (result, times) => some (result, clock :: times)
      | none => none

/-- A simulated provider: discovery and the device authorization request succeed, with `resp`
as the answer of the latter, and the token endpoint answers `endpoint k` to poll number `k`. -/
def simulatedRP (resp : DeviceAuthorizationResponse) (endpoint : Nat → PollAnswer)
    (fuel : Nat) : RP where
  NewRelyingPartyOIDC issuer clientID _ _ scopes :=
    .ok { Issuer := issuer, ClientID := clientID, Scopes := scopes }
  DeviceAuthorization _ _ := .ok resp
  DeviceAccessToken _ interval _ :=
    match pollDeviceAccessToken endpoint interval fuel 0 0 with
    | some (result, _) => result
    | none => .error (.errorf "still polling")

/-- The device flow of `loginDeviceFlow` (lines 128-146) against a given issuer and client
identifier. -/
def deviceFlowWith (rp : RP) (issuer clientID : String) : Except Error AccessTokenResponse :=
  match rp.NewRelyingPartyOIDC issuer clientID "" "" scopes with
  | .error err => .error err
  | .ok provider =>
    match rp.DeviceAuthorization scopes provider with
    | .error err => .error err
    | .ok resp =>
      match rp.DeviceAccessToken resp.DeviceCode
          (int64 (time.Duration resp.Interval * time.Second)) provider with
      | .error err => .error err
      | .ok token => .ok token

/-! ## The device flow with the polls observed -/

/-- The three functions of package `rp` that `loginDeviceFlow` calls, with the polls of the
token endpoint observed: `DeviceAccessToken` returns, with its result, the times of the polls
that it made. -/
structure ObservedRP where
  /-- The Go function `rp.NewRelyingPartyOIDC`. -/
  NewRelyingPartyOIDC : (issuer clientID clientSecret redirectURI : String) →
    (scopes : List String) → Except Error RelyingParty
  /-- The Go function `rp.DeviceAuthorization`. -/
  DeviceAuthorization : (scopes : List String) → RelyingParty →
    Except Error DeviceAuthorizationResponse
  /-- The Go function `rp.DeviceAccessToken`, the interval in nanoseconds, with the times of
  its polls. -/
  DeviceAccessToken : (deviceCode : String) → (interval : Int) → RelyingParty →
    Except Error AccessTokenResponse × List Int

/-- The same provider without the observation of the polls. -/
def ObservedRP.toRP (rp : ObservedRP) : RP where
  NewRelyingPartyOIDC := rp.NewRelyingPartyOIDC
  DeviceAuthorization := rp.DeviceAuthorization
  DeviceAccessToken deviceCode interval provider :=
    (rp.DeviceAccessToken deviceCode interval provider).1

/-- The function `loginDeviceFlow` of `login.go` with the polls observed: what it returns, and
the times of the polls of the token endpoint made on its behalf. -/
def loginDeviceFlowObserved (yaml : YAML) (rp : ObservedRP) (name : String) (w : World) :
    Except Error AccessTokenResponse × List Int :=
  match networkDetails yaml name w with
  | .error err => (.error err, [])
  | .ok network =>
    match rp.NewRelyingPartyOIDC network.Issuer network.ClientID "" "" scopes with
    | .error err => (.error err, [])
    | .ok provider =>
      match rp.DeviceAuthorization scopes provider with
      | .error err => (.error err, [])
      | .ok resp =>
        match rp.DeviceAccessToken resp.DeviceCode
            (int64 (time.Duration resp.Interval * time.Second)) provider with
        | (.error err, polls) => (.error err, polls)
        | (.ok token, polls) => (.ok token, polls)

/-- A simulated provider with the polls observed: discovery and the device authorization
request succeed, with `resp` as the answer of the latter, and `DeviceAccessToken` is the polling
loop against a token endpoint that answers `endpoint k` to poll number `k`, started at time 0. -/
def observedProvider (resp : DeviceAuthorizationResponse) (endpoint : Nat → PollAnswer)
    (fuel : Nat) : ObservedRP where
  NewRelyingPartyOIDC issuer clientID _ _ scopes :=
    .ok { Issuer := issuer, ClientID := clientID, Scopes := scopes }
  DeviceAuthorization _ _ := .ok resp
  DeviceAccessToken _ interval _ :=
    match pollDeviceAccessToken endpoint interval fuel 0 0 with
    | some result => result
    | none => (.error (.errorf "still polling"), [])

/-! ## Sequences of registry commands -/

/-- One invocation of a `network` sub-command, with the values of its flags. -/
inductive Command where
  | add (name api url clientID domain oidc : String)
  | remove (name : String)
  | set (name : String)
  deriving DecidableEq, Repr

/-- Runs one `network` sub-command. -/
def Command.run (yaml : YAML) : Command → World → Option Error × World
  | .add name api url clientID domain oidc, w => addNetwork yaml name api url clientID domain oidc w
  | .remove name, w => removeNetworkExecute yaml name w
  | .set name, w => setNetworkExecute yaml name w

/-- Runs the commands one after the other, whatever each of them returns. -/
def runCommands (yaml : YAML) : List Command → World → World
  | [], w => w
  | c :: cs, w => runCommands yaml cs (c.run yaml w).2

/-! ## Specification-side definitions -/

/-- The six arguments of `checkNetworkValues` in the order in which they are checked, each
with the words that name it in the error message. -/
def requiredFields (name api url clientID domain oidc : String) : List (String × String) :=
  [(name, "name"), (api, "api"), (url, "url"), (clientID, "client id"), (domain, "domain"),
   (oidc, "discovery endpoint")]

/-- The network record that `addNetwork` appends. -/
def newNetwork (name api url clientID domain oidc : String) : Network :=
  { Name := name, API := api, URL := url, ClientID := clientID, Domain := domain,
    DiscoveryEndpoint := oidc }

/-- The path of the token file of a network, as `storeResponse` and `unmarshalToken` build it. -/
def tokenPath (home name : String) : String :=
  home ++ "/.config/contract/." ++ name ++ "/" ++ "token.json"

/-- The path that `deleteToken` removes. -/
def logoutPath (home name : String) : String :=
  home ++ "/.config/." ++ name ++ "/" ++ "token"

/-- The YAML library decodes what it encodes. -/
def YAML.RoundTrip (yaml : YAML) : Prop :=
  ∀ c data, yaml.Marshal c = .ok data → yaml.Unmarshal data = .ok c

/-- The configuration file loads and its network list contains the built-in record. -/
def HasBuiltin (yaml : YAML) (w : World) : Prop :=
  ∃ c, Config yaml w = .ok c ∧ DecombineNetwork ∈ c.Networks

/-! ## Scenarios -/

/-- The document that `contract init config` writes. -/
def initConfig : ContractCLIConfig :=
  { Language := "en", DefaultContractFileType := "json", DefaultNetwork := "decombine",
    Networks := [DecombineNetwork] }

/-- A second network. -/
def staging : Network :=
  newNetwork "staging" "https://api.staging.test" "https://staging.test" "42" "staging.test"
    "https://auth.staging.test/.well-known/openid-configuration"

/-- The initial document with `staging` added. -/
def stagingConfig : ContractCLIConfig :=
  { initConfig with Networks := [DecombineNetwork, staging] }

/-- The document `stagingConfig` with `staging` as the default network. -/
def stagingDefaultConfig : ContractCLIConfig :=
  { stagingConfig with DefaultNetwork := "staging" }

/-- The document `stagingConfig` after a second `network add -n staging`. -/
def duplicateConfig : ContractCLIConfig :=
  { initConfig with Networks := [DecombineNetwork, staging, staging] }

/-- A document with an empty network list. -/
def emptyConfig : ContractCLIConfig :=
  { Language := "en", DefaultContractFileType := "json", DefaultNetwork := "decombine",
    Networks := [] }

/-- A YAML library restricted to the documents of the scenarios: each has one text. -/
def sampleYAML : YAML where
  Marshal c :=
    if c = initConfig then .ok "networks: [decombine]"
    else if c = stagingConfig then .ok "networks: [decombine, staging]"
    else if c = stagingDefaultConfig then .ok "defaultNetwork: staging"
    else if c = duplicateConfig then .ok "networks: [decombine, staging, staging]"
    else if c = emptyConfig then .ok "networks: []"
    else .error (.codec "unsupported document")
  Unmarshal data :=
    if data = "networks: [decombine]" then .ok initConfig
    else if data = "networks: [decombine, staging]" then .ok stagingConfig
    else if data = "defaultNetwork: staging" then .ok stagingDefaultConfig
    else if data = "networks: [decombine, staging, staging]" then .ok duplicateConfig
    else if data = "networks: []" then .ok emptyConfig
    else .error (.codec "cannot unmarshal")

/-- A session of registry commands: add `staging`, try to remove the built-in network, make
`staging` the default, remove an unknown name. -/
def sampleSession : List Command :=
  [.add "staging" "https://api.staging.test" "https://staging.test" "42" "staging.test"
     "https://auth.staging.test/.well-known/openid-configuration",
   .remove "decombine",
   .set "staging",
   .remove "ghost"]

/-- Two tokens. -/
def tokenA : AccessTokenResponse :=
  { AccessToken := "access-a", TokenType := "Bearer", ExpiresIn := 3600, IDToken := "id-a" }

/-- The second token. -/
def tokenB : AccessTokenResponse :=
  { AccessToken := "access-b", TokenType := "Bearer", ExpiresIn := 3600, IDToken := "id-b" }

/-- A JSON library restricted to the two tokens of the scenarios. -/
def sampleJSON : JSON where
  Marshal t :=
    if t = tokenA then .ok "access_token: access-a"
    else if t = tokenB then .ok "access_token: access-b"
    else .error (.codec "unsupported token")
  Unmarshal data :=
    if data = "access_token: access-a" then .ok tokenA
    else if data = "access_token: access-b" then .ok tokenB
    else .error (.codec "cannot unmarshal")

/-- A machine with a home directory and no file, whose configuration path is
`/home/u/.config/contract/contract.yaml`. -/
def emptyWorld : World :=
  { home := some "/home/u"
    configFileUsed := "/home/u/.config/contract/contract.yaml"
    viperSet := []
    files := fun _ => none
    readOnly := fun _ => false }

/-- The machine `emptyWorld` with `data` as the text of the configuration file. -/
def worldWith (data : String) : World :=
  emptyWorld.put "/home/u/.config/contract/contract.yaml" data

/-- The document `stagingDefaultConfig` after `network remove -n staging`: the default network
names no entry. -/
def danglingConfig : ContractCLIConfig :=
  { initConfig with DefaultNetwork := "staging" }

/-- A document written by hand: its second network has no name, and no default is set. -/
def namelessConfig : ContractCLIConfig :=
  { Language := "en", DefaultContractFileType := "json", DefaultNetwork := "",
    Networks := [DecombineNetwork, { API := "https://api.nameless.test" }] }

/-- A YAML library restricted to three more documents. -/
def edgeYAML : YAML where
  Marshal c :=
    if c = stagingDefaultConfig then .ok "defaultNetwork: staging"
    else if c = danglingConfig then .ok "defaultNetwork: staging, networks: [decombine]"
    else if c = namelessConfig then .ok "networks: [decombine, nameless]"
    else .error (.codec "unsupported document")
  Unmarshal data :=
    if data = "defaultNetwork: staging" then .ok stagingDefaultConfig
    else if data = "defaultNetwork: staging, networks: [decombine]" then .ok danglingConfig
    else if data = "networks: [decombine, nameless]" then .ok namelessConfig
    else .error (.codec "cannot unmarshal")

/-- The first entry of a list that bears the name, if there is one. -/
def firstNamed (name : String) (networks : List Network) : Option Network :=
  networks.find? (fun n => decide (n.Name = name))

/-- The answer of the sample provider to the device authorization request: poll every five
seconds. -/
def sampleResponse : DeviceAuthorizationResponse :=
  { DeviceCode := "device-1", UserCode := "ABCD-EFGH",
    VerificationURI := "https://auth.staging.test/device", ExpiresIn := 600, Interval := 5 }

/-- A token endpoint that answers authorization pending twice and then gives `tokenA`. -/
def sampleEndpoint : Nat → PollAnswer
  | 0 => .pending
  | 1 => .pending
  | _ => .token tokenA

/-- A provider where the user refuses the request: the token endpoint answers with a denial. -/
def deniedRP : RP :=
  simulatedRP sampleResponse (fun _ => .failure (.errorf "access_denied")) 1

/-- The initial document after `network add -n "? x"`. -/
def questionConfig : ContractCLIConfig :=
  { initConfig with
    Networks := [DecombineNetwork,
      newNetwork "? x" "https://api.x.test" "https://x.test" "7" "x.test"
        "https://auth.x.test/.well-known/openid-configuration"] }

/-- A YAML library that does not decode all that it encodes: it writes the name `? x` as it is,
and cannot read the text back. -/
def lossyYAML : YAML where
  Marshal c :=
    if c = initConfig then .ok "networks: [decombine]"
    else if c = questionConfig then .ok "networks: [decombine, ? x]"
    else .error (.codec "unsupported document")
  Unmarshal data :=
    if data = "networks: [decombine]" then .ok initConfig
    else .error (.codec "cannot unmarshal")

/-- The initial document after `network add -n decombine`: a second entry bears the reserved
name. -/
def shadowConfig : ContractCLIConfig :=
  { initConfig with
    Networks := [DecombineNetwork,
      newNetwork "decombine" "https://api.other.test" "https://other.test" "9" "other.test"
        "https://auth.other.test/.well-known/openid-configuration"] }

/-- A YAML library restricted to the initial document and to `shadowConfig`. -/
def shadowYAML : YAML where
  Marshal c :=
    if c = initConfig then .ok "networks: [decombine]"
    else if c = shadowConfig then .ok "networks: [decombine, decombine]"
    else .error (.codec "unsupported document")
  Unmarshal data :=
    if data = "networks: [decombine]" then .ok initConfig
    else if data = "networks: [decombine, decombine]" then .ok shadowConfig
    else .error (.codec "cannot unmarshal")

/-- A provider that shows the issuer it is asked to discover: building the relying party fails
with an error that carries the issuer. -/
def issuerProbeRP : RP where
  NewRelyingPartyOIDC issuer _ _ _ _ := .error (.errorf ("issuer: " ++ issuer))
  DeviceAuthorization _ _ := .error (.errorf "not reached")
  DeviceAccessToken _ _ _ := .error (.errorf "not reached")

/-- An answer to the device authorization request whose interval, 9223372037 seconds, does not
fit a 64-bit count of nanoseconds. -/
def overflowResponse : DeviceAuthorizationResponse :=
  { sampleResponse with Interval := 9223372037 }

/-- A token endpoint that answers authorization pending once and then gives `tokenA`. -/
def oncePendingEndpoint : Nat → PollAnswer
  | 0 => .pending
  | _ => .token tokenA

/-! ## Basic facts -/

theorem put_files_same (w : World) (path data : String) :
    (w.put path data).files path = some data := by
  simp [World.put]

theorem put_files_other (w : World) (path data p : String) (h : p ≠ path) :
    (w.put path data).files p = w.files p := by
  simp [World.put, h]

/-- The token file and the file that logout removes are never the same path. -/
theorem tokenPath_ne_logoutPath (home name : String) :
    tokenPath home name ≠ logoutPath home name := by
  intro h
  have hlen := congrArg String.length h
  have h1 : ("/.config/contract/." : String).length = 19 := by decide
  have h2 : ("/.config/." : String).length = 10 := by decide
  have h3 : ("token.json" : String).length = 10 := by decide
  have h4 : ("token" : String).length = 5 := by decide
  simp only [tokenPath, logoutPath, String.length_append, h1, h2, h3, h4] at hlen
  omega

/-- Logout never changes what `unmarshalToken` returns: `deleteToken` leaves the home
directory and the token file as they are. -/
theorem unmarshalToken_deleteToken (json : JSON) (name : String) (w : World) :
    unmarshalToken json name (deleteToken name w).2 = unmarshalToken json name w := by
  unfold deleteToken os.UserHomeDir
  cases hh : w.home with
  | none => rfl
  | some home =>
    simp only []
    unfold os.Remove
    cases hf : w.files (home ++ "/.config/." ++ name ++ "/" ++ "token") with
    | none => rfl
    | some old =>
      have hne := tokenPath_ne_logoutPath home name
      simp only [tokenPath, logoutPath] at hne
      simp [unmarshalToken, os.UserHomeDir, os.Open, World.erase, hh, hne]

/-! ## C1: logout after login -/

/-- C1 (the code does not do this): on a machine with no file, `storeResponse` for the network
`staging` succeeds, the following `deleteToken` fails because it looks for
`/home/u/.config/.staging/token`, a path that `storeResponse` never writes, and afterwards
`unmarshalToken` still succeeds and returns the stored token. -/
theorem deleteToken_misses_stored_token :
    (storeResponse sampleJSON "staging" tokenA emptyWorld).1 = none ∧
    (storeResponse sampleJSON "staging" tokenA emptyWorld).2.files
        "/home/u/.config/contract/.staging/token.json" = some "access_token: access-a" ∧
    (deleteToken "staging" (storeResponse sampleJSON "staging" tokenA emptyWorld).2).1 =
      some (.path "remove" "/home/u/.config/.staging/token") ∧
    unmarshalToken sampleJSON "staging"
      (deleteToken "staging" (storeResponse sampleJSON "staging" tokenA emptyWorld).2).2 =
      .ok tokenA := by
  decide

/-! ## Loading the configuration -/

/-- The function `Config` succeeds exactly when a configuration path is known, the file exists
and its text decodes. -/
theorem Config_eq_ok_iff (yaml : YAML) (w : World) (c : ContractCLIConfig) :
    Config yaml w = .ok c ↔
      w.configFileUsed ≠ "" ∧
        ∃ data, w.files w.configFileUsed = some data ∧ yaml.Unmarshal data = .ok c := by
  unfold Config viper.ConfigFileUsed os.ReadFile
  by_cases hcfg : w.configFileUsed = ""
  · simp [hcfg]
  · cases hf : w.files w.configFileUsed with
    | none => simp [hcfg, hf]
    | some data =>
      cases hu : yaml.Unmarshal data with
      | error err => simp [hcfg, hf, hu]
      | ok c1 => simp [hcfg, hf, hu]

/-- On a configuration that loads, `Networks` is its network list. -/
theorem Networks_of_Config (yaml : YAML) (w : World) (c : ContractCLIConfig)
    (hload : Config yaml w = .ok c) : Networks yaml w = c.Networks := by
  obtain ⟨hcfg, data, hf, hu⟩ := (Config_eq_ok_iff yaml w c).1 hload
  simp [Networks, viper.ConfigFileUsed, os.ReadFile, hcfg, hf, hu]

/-- On a configuration that loads, `writeNetworks` encodes the document with the new list and
writes it to the configuration path. -/
theorem writeNetworks_of_Config (yaml : YAML) (w : World) (c : ContractCLIConfig)
    (networks : List Network) (hload : Config yaml w = .ok c) :
    writeNetworks yaml networks w =
      match yaml.Marshal { c with Networks := networks } with
      | .error err => (some err, w)
      | .ok data => os.WriteFile w.configFileUsed data w := by
  obtain ⟨hcfg, data, hf, hu⟩ := (Config_eq_ok_iff yaml w c).1 hload
  simp [writeNetworks, viper.ConfigFileUsed, os.ReadFile, hcfg, hf, hu]

/-- The function `Networks` never returns the empty list unless the loaded document has an empty
list. -/
theorem Networks_eq_nil (yaml : YAML) (w : World) (h : Networks yaml w = []) :
    ∃ c, Config yaml w = .ok c ∧ c.Networks = [] := by
  unfold Networks viper.ConfigFileUsed os.ReadFile at h
  by_cases hcfg : w.configFileUsed = ""
  · simp [hcfg] at h
  · cases hf : w.files w.configFileUsed with
    | none => simp [hcfg, hf] at h
    | some data =>
      cases hu : yaml.Unmarshal data with
      | error err => simp [hcfg, hf, hu] at h
      | ok c =>
        simp [hcfg, hf, hu] at h
        exact ⟨c, (Config_eq_ok_iff yaml w c).2 ⟨hcfg, data, hf, hu⟩, h⟩

/-! ## The loop of `removeNetworkExecute` -/

/-- With the reserved name the loop returns the protection error at its first iteration, if
there is one. -/
theorem removeLoop_decombine (networks : List Network) (i : Nat) (n : Network)
    (rest : List Network) :
    removeLoop "decombine" networks i (n :: rest) =
      .error (.errorf "cannot remove default network") := by
  simp [removeLoop]

/-- With any other name the loop deletes the first entry of that name and keeps the rest. -/
theorem removeLoop_eq (name : String) (hname : name ≠ "decombine") (pre rest : List Network) :
    removeLoop name (pre ++ rest) pre.length rest =
      .ok (pre ++ rest.eraseP (fun n => decide (n.Name = name))) := by
  induction rest generalizing pre with
  | nil => simp [removeLoop]
  | cons n rest ih =>
    by_cases hn : n.Name = name
    · simp [removeLoop, hname, hn, List.take_append_eq_append_take, List.drop_append_eq_append_drop]
    · have h := ih (pre ++ [n])
      simp only [List.append_assoc, List.singleton_append, List.length_append,
        List.length_singleton] at h
      simp [removeLoop, hname, hn, h]

/-- The value of `networks` after the loop, for a name other than the reserved one. -/
theorem removeLoop_zero (name : String) (hname : name ≠ "decombine") (networks : List Network) :
    removeLoop name networks 0 networks =
      .ok (networks.eraseP (fun n => decide (n.Name = name))) := by
  simpa using removeLoop_eq name hname [] networks

/-! ## C2: removing the built-in network -/

/-- With a network list that is not empty, `removeNetworkExecute "decombine"` returns the
protection error and changes nothing. -/
theorem removeNetworkExecute_decombine_of_ne_nil (yaml : YAML) (w : World)
    (h : Networks yaml w ≠ []) :
    removeNetworkExecute yaml "decombine" w =
      (some (.errorf "cannot remove default network"), w) := by
  unfold removeNetworkExecute
  cases hn : Networks yaml w with
  | nil => exact absurd hn h
  | cons n rest => simp [removeLoop]

/-- C2 (the code does not do this): when the configuration file holds an empty network list, the
loop of `removeNetworkExecute` has no iteration, so the test `name == "decombine"` inside it
is never reached: the call with the reserved name returns no error and writes the
configuration file again. -/
theorem removeNetworkExecute_decombine_empty_list (yaml : YAML) (w : World)
    (c : ContractCLIConfig) (data : String)
    (hload : Config yaml w = .ok c) (hnil : c.Networks = [])
    (hmarshal : yaml.Marshal c = .ok data) (hwrite : w.readOnly w.configFileUsed = false) :
    removeNetworkExecute yaml "decombine" w = (none, w.put w.configFileUsed data) := by
  have hnets := Networks_of_Config yaml w c hload
  have hc : ({ c with Networks := [] } : ContractCLIConfig) = c := by
    cases c; simp_all
  unfold removeNetworkExecute
  simp [hnets, hnil, removeLoop, writeNetworks_of_Config yaml w c [] hload, hc, hmarshal,
    os.WriteFile, hwrite]

/-- The theorem `removeNetworkExecute_decombine_empty_list` on a configuration file whose text is
`networks: []`. -/
theorem removeNetworkExecute_decombine_empty_list_witness :
    removeNetworkExecute sampleYAML "decombine" (worldWith "networks: []") =
      (none, (worldWith "networks: []").put
        (worldWith "networks: []").configFileUsed "networks: []") :=
  removeNetworkExecute_decombine_empty_list sampleYAML (worldWith "networks: []") emptyConfig
    "networks: []" (by decide) (by decide) (by decide) (by decide)

/-! ## `checkNetworkValues` and `addNetwork` -/

/-- The check passes exactly when the six values are all non-empty. -/
theorem checkNetworkValues_eq_none_iff (name api url clientID domain oidc : String) :
    checkNetworkValues name api url clientID domain oidc = none ↔
      name ≠ "" ∧ api ≠ "" ∧ url ≠ "" ∧ clientID ≠ "" ∧ domain ≠ "" ∧ oidc ≠ "" := by
  unfold checkNetworkValues
  split_ifs <;> simp_all

/-- On a configuration that loads and with six non-empty values, `addNetwork` encodes the
document with the new entry appended and writes it to the configuration path. -/
theorem addNetwork_of_Config (yaml : YAML) (w : World) (c : ContractCLIConfig)
    (name api url clientID domain oidc : String) (hload : Config yaml w = .ok c)
    (hcheck : checkNetworkValues name api url clientID domain oidc = none) :
    addNetwork yaml name api url clientID domain oidc w =
      match yaml.Marshal
        { c with Networks := c.Networks ++ [newNetwork name api url clientID domain oidc] } with
      | .error err => (some err, w)
      | .ok data => os.WriteFile w.configFileUsed data w := by
  unfold addNetwork
  simp only [hcheck, Networks_of_Config yaml w c hload]
  exact writeNetworks_of_Config yaml w c _ hload

/-- When `writeNetworks` returns an error, the world is unchanged. -/
theorem writeNetworks_error_unchanged (yaml : YAML) (networks : List Network) (w : World)
    (err : Error) (h : (writeNetworks yaml networks w).1 = some err) :
    (writeNetworks yaml networks w).2 = w := by
  unfold writeNetworks at h ⊢
  simp only [] at h ⊢
  split_ifs with hcfg
  · rfl
  · rw [if_neg hcfg] at h
    split
    · rfl
    · split
      · rfl
      · split
        · rfl
        · rename_i file _ config _ data hm
          unfold os.WriteFile
          split_ifs with hro
          · rfl
          · exfalso
            simp_all [os.WriteFile]

/-- When `addNetwork` returns an error, the world is unchanged. -/
theorem addNetwork_error_unchanged (yaml : YAML) (name api url clientID domain oidc : String)
    (w : World) (err : Error)
    (h : (addNetwork yaml name api url clientID domain oidc w).1 = some err) :
    (addNetwork yaml name api url clientID domain oidc w).2 = w := by
  unfold addNetwork at h ⊢
  split
  · rfl
  · rename_i hc
    rw [hc] at h
    exact writeNetworks_error_unchanged yaml _ w err h

/-! ## C3: adding a name that is already configured -/

/-- C3 (as stated, false): the configuration file lists `decombine` and `staging`; adding
`staging` again with six non-empty values returns no error, and the file then holds the network
list with `staging` twice. -/
theorem addNetwork_accepts_duplicate :
    Config sampleYAML (worldWith "networks: [decombine, staging]") = .ok stagingConfig ∧
    (∃ n ∈ stagingConfig.Networks, n.Name = "staging") ∧
    (addNetwork sampleYAML "staging" "https://api.staging.test" "https://staging.test" "42"
      "staging.test" "https://auth.staging.test/.well-known/openid-configuration"
      (worldWith "networks: [decombine, staging]")).1 = none ∧
    Config sampleYAML
      (addNetwork sampleYAML "staging" "https://api.staging.test" "https://staging.test" "42"
        "staging.test" "https://auth.staging.test/.well-known/openid-configuration"
        (worldWith "networks: [decombine, staging]")).2 = .ok duplicateConfig ∧
    duplicateConfig.Networks ≠ stagingConfig.Networks := by
  decide

/-- C3 (amended): on a configuration `c` that loads and already lists a network named `name`,
`addNetwork` with six non-empty values does not reject the duplicate.  When the new document can
be encoded and the file written, it returns no error and the file holds the encoding of `c` with
one more entry named `name` appended, so that the list has at least two entries of that name;
and whenever it returns an error the world is unchanged. -/
theorem addNetwork_duplicate_appends (yaml : YAML) (w : World) (c : ContractCLIConfig)
    (name api url clientID domain oidc : String)
    (hload : Config yaml w = .ok c) (hdup : ∃ n ∈ c.Networks, n.Name = name)
    (hname : name ≠ "") (hapi : api ≠ "") (hurl : url ≠ "") (hclient : clientID ≠ "")
    (hdomain : domain ≠ "") (hoidc : oidc ≠ "") :
    (∀ data,
      yaml.Marshal
        { c with Networks := c.Networks ++ [newNetwork name api url clientID domain oidc] } =
          .ok data →
      w.readOnly w.configFileUsed = false →
      addNetwork yaml name api url clientID domain oidc w =
        (none, w.put w.configFileUsed data)) ∧
    2 ≤ (c.Networks ++ [newNetwork name api url clientID domain oidc]).countP
      (fun n => decide (n.Name = name)) ∧
    (∀ err, (addNetwork yaml name api url clientID domain oidc w).1 = some err →
      (addNetwork yaml name api url clientID domain oidc w).2 = w) := by
  have hcheck : checkNetworkValues name api url clientID domain oidc = none :=
    (checkNetworkValues_eq_none_iff _ _ _ _ _ _).2 ⟨hname, hapi, hurl, hclient, hdomain, hoidc⟩
  refine ⟨?_, ?_, fun err h => addNetwork_error_unchanged yaml _ _ _ _ _ _ w err h⟩
  · intro data hm hw
    rw [addNetwork_of_Config yaml w c _ _ _ _ _ _ hload hcheck, hm]
    simp [os.WriteFile, hw]
  · obtain ⟨n, hn, hnn⟩ := hdup
    have h1 : 0 < c.Networks.countP (fun n => decide (n.Name = name)) :=
      List.countP_pos_iff.2 ⟨n, hn, by simpa using hnn⟩
    have h2 : [newNetwork name api url clientID domain oidc].countP
        (fun n => decide (n.Name = name)) = 1 := by
      simp [newNetwork]
    rw [List.countP_append, h2]
    omega

/-- The theorem `addNetwork_duplicate_appends` on the configuration that lists `decombine` and
`staging`, adding `staging` again. -/
theorem addNetwork_duplicate_appends_witness :
    addNetwork sampleYAML "staging" "https://api.staging.test" "https://staging.test" "42"
      "staging.test" "https://auth.staging.test/.well-known/openid-configuration"
      (worldWith "networks: [decombine, staging]") =
      (none, (worldWith "networks: [decombine, staging]").put
        (worldWith "networks: [decombine, staging]").configFileUsed
        "networks: [decombine, staging, staging]") :=
  (addNetwork_duplicate_appends sampleYAML (worldWith "networks: [decombine, staging]")
    stagingConfig "staging" "https://api.staging.test" "https://staging.test" "42"
    "staging.test" "https://auth.staging.test/.well-known/openid-configuration"
    (by decide) (by decide) (by decide) (by decide) (by decide) (by decide) (by decide)
    (by decide)).1 "networks: [decombine, staging, staging]" (by decide) (by decide)

/-! ## C4: removing a name that is not configured -/

/-- C4 (as stated, false): the configuration file lists only `decombine`; removing `ghost`, a
non-empty name that is not the reserved one and matches no entry, returns no error. -/
theorem removeNetworkExecute_unknown_name_succeeds :
    Config sampleYAML (worldWith "networks: [decombine]") = .ok initConfig ∧
    (∀ n ∈ initConfig.Networks, n.Name ≠ "ghost") ∧
    (removeNetworkExecute sampleYAML "ghost" (worldWith "networks: [decombine]")).1 = none := by
  decide

/-- C4 (amended): on a configuration `c` that loads, for a non-empty name other than the
reserved one that matches no entry, `removeNetworkExecute` has no not-found error: it encodes
`c`, with its network list unchanged, writes it back to the configuration file and returns
success; the only errors are those of the encoding and of the write. -/
theorem removeNetworkExecute_unknown_name (yaml : YAML) (w : World) (c : ContractCLIConfig)
    (name : String) (hload : Config yaml w = .ok c) (hne : name ≠ "")
    (hname : name ≠ "decombine") (habsent : ∀ n ∈ c.Networks, n.Name ≠ name) :
    removeNetworkExecute yaml name w =
      (match yaml.Marshal c with
       | .error err => (some err, w)
       | .ok data => os.WriteFile w.configFileUsed data w) ∧
    (∀ data, yaml.Marshal c = .ok data → w.readOnly w.configFileUsed = false →
      removeNetworkExecute yaml name w = (none, w.put w.configFileUsed data)) := by
  have herase : c.Networks.eraseP (fun n => decide (n.Name = name)) = c.Networks :=
    List.eraseP_of_forall_not (fun n hn => by simpa using habsent n hn)
  have hmain : removeNetworkExecute yaml name w =
      (match yaml.Marshal c with
       | .error err => (some err, w)
       | .ok data => os.WriteFile w.configFileUsed data w) := by
    unfold removeNetworkExecute
    simp only [if_neg hne, Networks_of_Config yaml w c hload, removeLoop_zero name hname, herase]
    exact writeNetworks_of_Config yaml w c c.Networks hload
  refine ⟨hmain, ?_⟩
  intro data hm hw
  rw [hmain, hm]
  simp [os.WriteFile, hw]

/-- The theorem `removeNetworkExecute_unknown_name` on the configuration that lists only
`decombine`, removing `ghost`. -/
theorem removeNetworkExecute_unknown_name_witness :
    removeNetworkExecute sampleYAML "ghost" (worldWith "networks: [decombine]") =
      (none, (worldWith "networks: [decombine]").put
        (worldWith "networks: [decombine]").configFileUsed "networks: [decombine]") :=
  (removeNetworkExecute_unknown_name sampleYAML (worldWith "networks: [decombine]") initConfig
    "ghost" (by decide) (by decide) (by decide) (by decide)).2 "networks: [decombine]"
    (by decide) (by decide)

/-! ## C5: the token round trip -/

/-- Where `unmarshalToken` reads: the file `tokenPath home name`. -/
theorem unmarshalToken_eq (json : JSON) (name home : String) (w : World)
    (hhome : w.home = some home) :
    unmarshalToken json name w =
      match w.files (tokenPath home name) with
      | some b => json.Unmarshal b
      | none => .error (.path "open" (tokenPath home name)) := by
  unfold unmarshalToken os.UserHomeDir os.Open tokenPath
  simp only [hhome]
  cases hf : w.files (home ++ "/.config/contract/." ++ name ++ "/" ++ "token.json") with
  | none => rfl
  | some b =>
    simp only []
    cases json.Unmarshal b <;> rfl

/-- Where `storeResponse` writes: a successful call leaves the encoding of the token, and only
it, in the file `tokenPath home name`, and changes nothing else. -/
theorem storeResponse_eq (json : JSON) (name : String) (token : AccessTokenResponse)
    (w w1 : World) (hstore : storeResponse json name token w = (none, w1)) :
    ∃ home data, w.home = some home ∧ json.Marshal token = .ok data ∧
      w1 = (w.put (tokenPath home name) "").put (tokenPath home name) data := by
  unfold storeResponse os.UserHomeDir os.MkdirAll os.Create at hstore
  cases hh : w.home with
  | none => simp [hh] at hstore
  | some home =>
    simp only [hh] at hstore
    by_cases hro : w.readOnly (home ++ "/.config/contract/." ++ name ++ "/" ++ "token.json")
    · simp [hro] at hstore
    · simp only [hro] at hstore
      cases hm : json.Marshal token with
      | error err => simp [hm] at hstore
      | ok data =>
        simp only [hm, os.Write, World.put] at hstore
        simp only [Bool.false_eq_true, if_false, if_true, String.empty_append, Prod.mk.injEq,
          true_and] at hstore
        refine ⟨home, data, rfl, rfl, ?_⟩
        rw [← hstore]
        rfl

/-- C5: when the JSON library decodes the encoding of `tok` to `tok`, a successful
`storeResponse name tok` puts that encoding in the file that `unmarshalToken name` reads (the
same path for every name), and `unmarshalToken name` then returns `tok`; a second successful
`storeResponse` for the same name overwrites the first: `unmarshalToken` returns the token saved
last. -/
theorem storeResponse_unmarshalToken (json : JSON) (name : String) (tok : AccessTokenResponse)
    (w w1 : World)
    (hcodec : ∀ data, json.Marshal tok = .ok data → json.Unmarshal data = .ok tok)
    (hstore : storeResponse json name tok w = (none, w1)) :
    unmarshalToken json name w1 = .ok tok ∧
    (∃ home data, w1.home = some home ∧ json.Marshal tok = .ok data ∧
      w1.files (tokenPath home name) = some data ∧
      ∀ w2 : World, w2.home = some home →
        unmarshalToken json name w2 =
          match w2.files (tokenPath home name) with
          | some b => json.Unmarshal b
          | none => .error (.path "open" (tokenPath home name))) ∧
    (∀ (tok2 : AccessTokenResponse) (w2 : World),
      (∀ data, json.Marshal tok2 = .ok data → json.Unmarshal data = .ok tok2) →
      storeResponse json name tok2 w1 = (none, w2) →
      unmarshalToken json name w2 = .ok tok2) := by
  have key : ∀ (t : AccessTokenResponse) (u u1 : World),
      (∀ data, json.Marshal t = .ok data → json.Unmarshal data = .ok t) →
      storeResponse json name t u = (none, u1) →
      ∃ home data, u1.home = some home ∧ json.Marshal t = .ok data ∧
        u1.files (tokenPath home name) = some data ∧ unmarshalToken json name u1 = .ok t := by
    intro t u u1 hc hs
    obtain ⟨home, data, hh, hm, rfl⟩ := storeResponse_eq json name t u u1 hs
    have hh1 : ((u.put (tokenPath home name) "").put (tokenPath home name) data).home =
        some home := hh
    refine ⟨home, data, hh1, hm, put_files_same _ _ _, ?_⟩
    rw [unmarshalToken_eq json name home _ hh1, put_files_same]
    exact hc data hm
  obtain ⟨home, data, hh, hm, hf, hload⟩ := key tok w w1 hcodec hstore
  refine ⟨hload, ⟨home, data, hh, hm, hf, fun w2 h2 => unmarshalToken_eq json name home w2 h2⟩, ?_⟩
  intro tok2 w2 hc2 hs2
  obtain ⟨_, _, _, _, _, h⟩ := key tok2 w1 w2 hc2 hs2
  exact h

/-- The theorem `storeResponse_unmarshalToken` on a machine with no file: `tokenA` is stored for
`staging` and read back. -/
theorem storeResponse_unmarshalToken_witness :
    unmarshalToken sampleJSON "staging"
      (storeResponse sampleJSON "staging" tokenA emptyWorld).2 = .ok tokenA :=
  (storeResponse_unmarshalToken sampleJSON "staging" tokenA emptyWorld
    (storeResponse sampleJSON "staging" tokenA emptyWorld).2
    (by intro data h
        have hd : data = "access_token: access-a" := by
          have h1 : sampleJSON.Marshal tokenA = .ok "access_token: access-a" := by decide
          rw [h1] at h
          cases h
          rfl
        subst hd
        decide)
    rfl).1

/-! ## C6: validation of the six values -/

/-- C6: `checkNetworkValues` returns an error exactly when one of the six values is empty; the
error is the message of the first empty value in the order name, api, url, client id, domain,
discovery endpoint; and `addNetwork` then returns that error with the world unchanged, whatever
the YAML library and the file system are. -/
theorem checkNetworkValues_first_empty (name api url clientID domain oidc : String) :
    ((checkNetworkValues name api url clientID domain oidc).isSome ↔
      (name = "" ∨ api = "" ∨ url = "" ∨ clientID = "" ∨ domain = "" ∨ oidc = "")) ∧
    checkNetworkValues name api url clientID domain oidc =
      ((requiredFields name api url clientID domain oidc).find?
        (fun f => decide (f.1 = ""))).map (fun f => Error.errorf (f.2 ++ " is required")) ∧
    (∀ err, checkNetworkValues name api url clientID domain oidc = some err →
      ∀ (yaml : YAML) (w : World),
        addNetwork yaml name api url clientID domain oidc w = (some err, w)) := by
  refine ⟨?_, ?_, ?_⟩
  · unfold checkNetworkValues
    split_ifs <;> simp_all
  · unfold checkNetworkValues requiredFields
    split_ifs <;> simp_all [List.find?]
  · intro err herr yaml w
    unfold addNetwork
    rw [herr]

/-- The theorem `checkNetworkValues_first_empty` with an empty api and an empty discovery
endpoint: the error names the api. -/
theorem checkNetworkValues_first_empty_witness :
    checkNetworkValues "staging" "" "https://staging.test" "42" "staging.test" "" =
      some (.errorf "api is required") ∧
    addNetwork sampleYAML "staging" "" "https://staging.test" "42" "staging.test" ""
      (worldWith "networks: [decombine]") =
      (some (.errorf "api is required"), worldWith "networks: [decombine]") :=
  ⟨by decide,
   (checkNetworkValues_first_empty "staging" "" "https://staging.test" "42" "staging.test"
      "").2.2 (.errorf "api is required") (by decide) sampleYAML
      (worldWith "networks: [decombine]")⟩

/-! ## C7: what a successful `addNetwork` persists -/

/-- C7: on a configuration `c` that loads and with six non-empty values, when `addNetwork`
returns no error the configuration file holds the encoding of a document whose network list is
that of `c` followed by one entry with the given name, api, url, client id, domain and discovery
endpoint, and whose language, default contract file type and default network are those of `c`;
nothing else changes, and a YAML library that decodes what it encodes loads that document. -/
theorem addNetwork_persists_appended (yaml : YAML) (w w1 : World) (c : ContractCLIConfig)
    (name api url clientID domain oidc : String)
    (hload : Config yaml w = .ok c)
    (hname : name ≠ "") (hapi : api ≠ "") (hurl : url ≠ "") (hclient : clientID ≠ "")
    (hdomain : domain ≠ "") (hoidc : oidc ≠ "")
    (hadd : addNetwork yaml name api url clientID domain oidc w = (none, w1)) :
    ∃ (c1 : ContractCLIConfig) (n : Network) (data : String),
      c1.Networks = c.Networks ++ [n] ∧
      n.Name = name ∧ n.API = api ∧ n.URL = url ∧ n.ClientID = clientID ∧ n.Domain = domain ∧
      n.DiscoveryEndpoint = oidc ∧
      c1.Language = c.Language ∧ c1.DefaultContractFileType = c.DefaultContractFileType ∧
      c1.DefaultNetwork = c.DefaultNetwork ∧
      yaml.Marshal c1 = .ok data ∧ w1 = w.put w.configFileUsed data ∧
      (yaml.RoundTrip → Config yaml w1 = .ok c1) := by
  have hcheck : checkNetworkValues name api url clientID domain oidc = none :=
    (checkNetworkValues_eq_none_iff _ _ _ _ _ _).2 ⟨hname, hapi, hurl, hclient, hdomain, hoidc⟩
  have hcfg := ((Config_eq_ok_iff yaml w c).1 hload).1
  rw [addNetwork_of_Config yaml w c _ _ _ _ _ _ hload hcheck] at hadd
  cases hm : yaml.Marshal
      { c with Networks := c.Networks ++ [newNetwork name api url clientID domain oidc] } with
  | error err => simp [hm] at hadd
  | ok data =>
    simp only [hm, os.WriteFile] at hadd
    by_cases hro : w.readOnly w.configFileUsed
    · simp [hro] at hadd
    · simp only [hro, Bool.false_eq_true, if_false, Prod.mk.injEq, true_and] at hadd
      refine ⟨{ c with Networks := c.Networks ++ [newNetwork name api url clientID domain oidc] },
        newNetwork name api url clientID domain oidc, data, rfl, rfl, rfl, rfl, rfl, rfl,
        rfl, rfl, rfl, rfl, hm, hadd.symm, ?_⟩
      intro hrt
      rw [← hadd]
      exact (Config_eq_ok_iff yaml _ _).2 ⟨hcfg, data, put_files_same _ _ _, hrt _ _ hm⟩

/-- The theorem `addNetwork_persists_appended` on the initial configuration, adding `staging`:
the document with `decombine` and `staging` is what the file then holds. -/
theorem addNetwork_persists_appended_witness :
    ∃ (c1 : ContractCLIConfig) (n : Network) (data : String),
      c1.Networks = initConfig.Networks ++ [n] ∧
      n.Name = "staging" ∧ n.API = "https://api.staging.test" ∧ n.URL = "https://staging.test" ∧
      n.ClientID = "42" ∧ n.Domain = "staging.test" ∧
      n.DiscoveryEndpoint = "https://auth.staging.test/.well-known/openid-configuration" ∧
      c1.Language = initConfig.Language ∧
      c1.DefaultContractFileType = initConfig.DefaultContractFileType ∧
      c1.DefaultNetwork = initConfig.DefaultNetwork ∧
      sampleYAML.Marshal c1 = .ok data ∧
      (worldWith "networks: [decombine, staging]") =
        (worldWith "networks: [decombine]").put
          (worldWith "networks: [decombine]").configFileUsed data ∧
      (sampleYAML.RoundTrip →
        Config sampleYAML (worldWith "networks: [decombine, staging]") = .ok c1) :=
  addNetwork_persists_appended sampleYAML (worldWith "networks: [decombine]")
    (worldWith "networks: [decombine, staging]") initConfig
    "staging" "https://api.staging.test" "https://staging.test" "42" "staging.test"
    "https://auth.staging.test/.well-known/openid-configuration"
    (by decide) (by decide) (by decide) (by decide) (by decide) (by decide) (by decide)
    (by
      have h : (worldWith "networks: [decombine, staging]") =
          (worldWith "networks: [decombine]").put
            (worldWith "networks: [decombine]").configFileUsed
            "networks: [decombine, staging]" := by
        simp only [worldWith, World.put, emptyWorld]
        congr 1
        funext p
        by_cases hp : p = "/home/u/.config/contract/contract.yaml" <;> simp [hp]
      rw [h]
      rfl)

/-! ## C8: what a successful `removeNetworkExecute` persists -/

/-- C8: on a configuration `c` that loads, for a non-empty name other than `decombine` that
names an entry of `c`, when the new document can be encoded and the file written,
`removeNetworkExecute` returns no error and the configuration file holds the encoding of a
document whose network list is that of `c` without the first entry of that name (the entries
before it, which have other names, and all the entries after it are kept in order) and whose
language, default contract file type and default network are those of `c`. -/
theorem removeNetworkExecute_removes_first (yaml : YAML) (w : World) (c : ContractCLIConfig)
    (name data : String)
    (hload : Config yaml w = .ok c) (hne : name ≠ "") (hname : name ≠ "decombine")
    (hmem : ∃ n ∈ c.Networks, n.Name = name)
    (hmarshal : yaml.Marshal
      { c with Networks := c.Networks.eraseP (fun n => decide (n.Name = name)) } = .ok data)
    (hwrite : w.readOnly w.configFileUsed = false) :
    removeNetworkExecute yaml name w = (none, w.put w.configFileUsed data) ∧
    ∃ (c1 : ContractCLIConfig) (before : List Network) (n : Network) (after : List Network),
      c.Networks = before ++ n :: after ∧ n.Name = name ∧ (∀ m ∈ before, m.Name ≠ name) ∧
      c1.Networks = before ++ after ∧
      c1.Language = c.Language ∧ c1.DefaultContractFileType = c.DefaultContractFileType ∧
      c1.DefaultNetwork = c.DefaultNetwork ∧
      yaml.Marshal c1 = .ok data ∧
      (yaml.RoundTrip → Config yaml (w.put w.configFileUsed data) = .ok c1) := by
  have hcfg := ((Config_eq_ok_iff yaml w c).1 hload).1
  constructor
  · unfold removeNetworkExecute
    simp only [if_neg hne, Networks_of_Config yaml w c hload, removeLoop_zero name hname]
    rw [writeNetworks_of_Config yaml w c _ hload, hmarshal]
    simp [os.WriteFile, hwrite]
  · obtain ⟨n0, hn0, hnn0⟩ := hmem
    have hp : (fun n : Network => decide (n.Name = name)) n0 = true := by simpa using hnn0
    obtain ⟨n, before, after, hbefore, hn, hsplit, herase⟩ :=
      @List.exists_of_eraseP Network (fun n => decide (n.Name = name)) c.Networks n0 hn0 hp
    refine ⟨{ c with Networks := c.Networks.eraseP (fun n => decide (n.Name = name)) },
      before, n, after, hsplit, by simpa using hn, fun m hm => by simpa using hbefore m hm,
      herase, rfl, rfl, rfl, hmarshal, ?_⟩
    intro hrt
    exact (Config_eq_ok_iff yaml _ _).2 ⟨hcfg, data, put_files_same _ _ _, hrt _ _ hmarshal⟩

/-- The theorem `removeNetworkExecute_removes_first` on the configuration that lists `decombine`
and `staging` twice: removing `staging` leaves `decombine` and one `staging`. -/
theorem removeNetworkExecute_removes_first_witness :
    removeNetworkExecute sampleYAML "staging"
        (worldWith "networks: [decombine, staging, staging]") =
      (none, (worldWith "networks: [decombine, staging, staging]").put
        (worldWith "networks: [decombine, staging, staging]").configFileUsed
        "networks: [decombine, staging]") :=
  (removeNetworkExecute_removes_first sampleYAML
    (worldWith "networks: [decombine, staging, staging]") duplicateConfig "staging"
    "networks: [decombine, staging]" (by decide) (by decide) (by decide) (by decide)
    (by decide) (by decide)).1

/-! ## C10: setting a default network that is not configured -/

/-- The loop of `setNetworkExecute` on a list without the name: the not-found error. -/
theorem setNetworkLoop_absent (yaml : YAML) (name : String) (networks : List Network)
    (w : World) (habsent : ∀ n ∈ networks, n.Name ≠ name) :
    setNetworkLoop yaml name networks w =
      (some (.errorf ("network " ++ name ++ " not found")), w) := by
  induction networks with
  | nil => rfl
  | cons n rest ih =>
    have hn : n.Name ≠ name := habsent n (List.mem_cons_self _ _)
    simp only [setNetworkLoop, if_neg hn]
    exact ih (fun m hm => habsent m (List.mem_cons_of_mem _ hm))

/-- C10: for every state of the configuration file and every name that no element of
`Networks()` bears, `setNetworkExecute` returns an error (that the name is required when it is
empty, that the network is not found otherwise) and the world is unchanged: the configuration
file, the viper values, and so what `Config` returns, its `DefaultNetwork` included. -/
theorem setNetworkExecute_unknown_name (yaml : YAML) (w : World) (name : String)
    (habsent : ∀ n ∈ Networks yaml w, n.Name ≠ name) :
    setNetworkExecute yaml name w =
      (some (if name = "" then .errorf "network name is required"
             else .errorf ("network " ++ name ++ " not found")), w) ∧
    (setNetworkExecute yaml name w).2.files = w.files ∧
    Config yaml (setNetworkExecute yaml name w).2 = Config yaml w := by
  have h : setNetworkExecute yaml name w =
      (some (if name = "" then .errorf "network name is required"
             else .errorf ("network " ++ name ++ " not found")), w) := by
    unfold setNetworkExecute
    by_cases hname : name = ""
    · simp [hname]
    · simp only [if_neg hname]
      exact setNetworkLoop_absent yaml name _ w habsent
  refine ⟨h, ?_, ?_⟩ <;> rw [h]

/-- The theorem `setNetworkExecute_unknown_name` on the configuration that lists `decombine` and
`staging`, with the name `ghost`. -/
theorem setNetworkExecute_unknown_name_witness :
    setNetworkExecute sampleYAML "ghost" (worldWith "networks: [decombine, staging]") =
      (some (.errorf "network ghost not found"), worldWith "networks: [decombine, staging]") :=
  (setNetworkExecute_unknown_name sampleYAML (worldWith "networks: [decombine, staging]")
    "ghost" (by decide)).1

/-! ## C9: the built-in network is never removed -/

/-- The sample YAML library decodes what it encodes. -/
theorem sampleYAML_roundTrip : sampleYAML.RoundTrip := by
  intro c data h
  simp only [sampleYAML] at h
  split_ifs at h <;> cases h <;> subst_vars <;> decide

/-- The function `Config` looks only at the configuration path and at the files. -/
theorem Config_congr (yaml : YAML) (w w1 : World) (hcfg : w1.configFileUsed = w.configFileUsed)
    (hfiles : w1.files = w.files) : Config yaml w1 = Config yaml w := by
  simp [Config, viper.ConfigFileUsed, os.ReadFile, hcfg, hfiles]

/-- Writing the encoding of a document to the configuration path makes it the loaded one. -/
theorem Config_put (yaml : YAML) (hrt : yaml.RoundTrip) (w : World) (c : ContractCLIConfig)
    (data : String) (hcfg : w.configFileUsed ≠ "") (hm : yaml.Marshal c = .ok data) :
    Config yaml (w.put w.configFileUsed data) = .ok c :=
  (Config_eq_ok_iff yaml _ _).2 ⟨hcfg, data, put_files_same _ _ _, hrt _ _ hm⟩

/-- Encoding a document with the built-in network and writing it to the configuration path
keeps the invariant, whether the encoding and the write succeed or not. -/
theorem HasBuiltin_write (yaml : YAML) (hrt : yaml.RoundTrip) (w : World)
    (c : ContractCLIConfig) (hw : HasBuiltin yaml w) (hc : DecombineNetwork ∈ c.Networks) :
    HasBuiltin yaml
      (match yaml.Marshal c with
       | .error err => (some err, w)
       | .ok data => os.WriteFile w.configFileUsed data w).2 := by
  obtain ⟨c0, hload, hmem⟩ := hw
  have hcfg := ((Config_eq_ok_iff yaml w c0).1 hload).1
  cases hm : yaml.Marshal c with
  | error err => exact ⟨c0, hload, hmem⟩
  | ok data =>
    simp only [os.WriteFile]
    by_cases hro : w.readOnly w.configFileUsed
    · simp only [hro, if_true]
      exact ⟨c0, hload, hmem⟩
    · simp only [hro, Bool.false_eq_true, if_false]
      exact ⟨c, Config_put yaml hrt w c data hcfg hm, hc⟩

/-- The function `addNetwork` keeps the invariant. -/
theorem HasBuiltin_addNetwork (yaml : YAML) (hrt : yaml.RoundTrip) (w : World)
    (name api url clientID domain oidc : String) (hw : HasBuiltin yaml w) :
    HasBuiltin yaml (addNetwork yaml name api url clientID domain oidc w).2 := by
  cases hcheck : checkNetworkValues name api url clientID domain oidc with
  | some err =>
    unfold addNetwork
    rw [hcheck]
    exact hw
  | none =>
    obtain ⟨c, hload, hmem⟩ := hw
    rw [addNetwork_of_Config yaml w c _ _ _ _ _ _ hload hcheck]
    exact HasBuiltin_write yaml hrt w _ ⟨c, hload, hmem⟩ (List.mem_append_left _ hmem)

/-- The function `removeNetworkExecute` keeps the invariant. -/
theorem HasBuiltin_removeNetworkExecute (yaml : YAML) (hrt : yaml.RoundTrip) (w : World)
    (name : String) (hw : HasBuiltin yaml w) :
    HasBuiltin yaml (removeNetworkExecute yaml name w).2 := by
  obtain ⟨c, hload, hmem⟩ := hw
  have hnets := Networks_of_Config yaml w c hload
  by_cases hne : name = ""
  · unfold removeNetworkExecute
    rw [if_pos hne]
    exact ⟨c, hload, hmem⟩
  · by_cases hname : name = "decombine"
    · subst hname
      rw [removeNetworkExecute_decombine_of_ne_nil yaml w
        (by rw [hnets]; exact List.ne_nil_of_mem hmem)]
      exact ⟨c, hload, hmem⟩
    · unfold removeNetworkExecute
      simp only [if_neg hne, hnets, removeLoop_zero name hname]
      rw [writeNetworks_of_Config yaml w c _ hload]
      refine HasBuiltin_write yaml hrt w _ ⟨c, hload, hmem⟩ ?_
      have hd : ¬ (fun n : Network => decide (n.Name = name)) DecombineNetwork = true := by
        simp only [decide_eq_true_eq]
        intro h
        exact hname h.symm
      exact (@List.mem_eraseP_of_neg Network (fun n => decide (n.Name = name)) DecombineNetwork
        c.Networks hd).2 hmem

/-- The loop of `setNetworkExecute` keeps the invariant. -/
theorem HasBuiltin_setNetworkLoop (yaml : YAML) (hrt : yaml.RoundTrip) (name : String)
    (networks : List Network) (w : World) (hw : HasBuiltin yaml w) :
    HasBuiltin yaml (setNetworkLoop yaml name networks w).2 := by
  induction networks with
  | nil => exact hw
  | cons n rest ih =>
    by_cases hn : n.Name = name
    · obtain ⟨c, hload, hmem⟩ := hw
      have hcfg := ((Config_eq_ok_iff yaml w c).1 hload).1
      obtain ⟨_, data0, hf0, _⟩ := (Config_eq_ok_iff yaml w c).1 hload
      have hload2 : Config yaml
          (viper.Set "network" (.string n.Name) (viper.Set "defaultNetwork" (.network n) w)) =
          .ok c := by
        rw [Config_congr yaml w
          (viper.Set "network" (.string n.Name) (viper.Set "defaultNetwork" (.network n) w))
          rfl rfl]
        exact hload
      have hf2 : (viper.Set "network" (.string n.Name)
          (viper.Set "defaultNetwork" (.network n) w)).files w.configFileUsed = some data0 := hf0
      simp only [setNetworkLoop, if_pos hn, hload2, UpdateConfig, os.ReadFile,
        viper.ConfigFileUsed]
      have hused : (viper.Set "network" (.string n.Name)
          (viper.Set "defaultNetwork" (.network n) w)).configFileUsed = w.configFileUsed := rfl
      rw [hused, hf2]
      have h := HasBuiltin_write yaml hrt
        (viper.Set "network" (.string n.Name) (viper.Set "defaultNetwork" (.network n) w))
        { c with DefaultNetwork := n.Name } ⟨c, hload2, hmem⟩ hmem
      rw [hused] at h
      simp only []
      exact h
    · simp only [setNetworkLoop, if_neg hn]
      exact ih

/-- The function `setNetworkExecute` keeps the invariant. -/
theorem HasBuiltin_setNetworkExecute (yaml : YAML) (hrt : yaml.RoundTrip) (w : World)
    (name : String) (hw : HasBuiltin yaml w) :
    HasBuiltin yaml (setNetworkExecute yaml name w).2 := by
  unfold setNetworkExecute
  by_cases hne : name = ""
  · rw [if_pos hne]
    exact hw
  · rw [if_neg hne]
    exact HasBuiltin_setNetworkLoop yaml hrt name _ w hw

/-- Every sequence of commands keeps the invariant. -/
theorem HasBuiltin_runCommands (yaml : YAML) (hrt : yaml.RoundTrip) (cmds : List Command)
    (w : World) (hw : HasBuiltin yaml w) : HasBuiltin yaml (runCommands yaml cmds w) := by
  induction cmds generalizing w with
  | nil => exact hw
  | cons cmd rest ih =>
    apply ih
    cases cmd with
    | add name api url clientID domain oidc =>
      exact HasBuiltin_addNetwork yaml hrt w name api url clientID domain oidc hw
    | remove name => exact HasBuiltin_removeNetworkExecute yaml hrt w name hw
    | set name => exact HasBuiltin_setNetworkExecute yaml hrt w name hw

/-- A successful `makeYAMLConfigFile` leaves the encoding of the initial document at the path,
`contract.yaml` when the given path is empty. -/
theorem makeYAMLConfigFile_eq (yaml : YAML) (path : String) (w w1 : World)
    (hinit : makeYAMLConfigFile yaml path w = (none, w1)) :
    ∃ data, yaml.Marshal initConfig = .ok data ∧
      w1.configFileUsed = w.configFileUsed ∧
      w1.files (if path = "" then "contract.yaml" else path) = some data := by
  unfold makeYAMLConfigFile os.Create at hinit
  simp only [] at hinit
  by_cases hro : w.readOnly (if path = "" then "contract.yaml" else path)
  · simp [hro] at hinit
  · simp only [hro, Bool.false_eq_true, if_false, List.nil_append] at hinit
    cases hm : yaml.Marshal initConfig with
    | error err =>
      simp only [initConfig] at hm
      simp [hm] at hinit
    | ok data =>
      simp only [initConfig] at hm
      simp only [hm, os.Write, put_files_same, String.empty_append, Prod.mk.injEq,
        true_and] at hinit
      refine ⟨data, rfl, ?_, ?_⟩
      · rw [← hinit]
        rfl
      · rw [← hinit]
        exact put_files_same _ _ _

/-- C9 (amended): with a YAML library that decodes what it encodes, start from the document
that a successful `makeYAMLConfigFile` writes, at the path that the process uses as its
configuration file.  After any finite sequence of `addNetwork`, `removeNetworkExecute` and `setNetworkExecute`
calls with arbitrary arguments, whatever each one returns, the configuration file still loads
and its network list still contains the record `DecombineNetwork`. -/
theorem builtin_network_never_removed (yaml : YAML) (hrt : yaml.RoundTrip) (path : String)
    (w0 w1 : World)
    (hused : w0.configFileUsed = if path = "" then "contract.yaml" else path)
    (hinit : makeYAMLConfigFile yaml path w0 = (none, w1)) (cmds : List Command) :
    ∃ c, Config yaml (runCommands yaml cmds w1) = .ok c ∧ DecombineNetwork ∈ c.Networks := by
  apply HasBuiltin_runCommands yaml hrt cmds w1
  obtain ⟨data, hm, hcfg, hf⟩ := makeYAMLConfigFile_eq yaml path w0 w1 hinit
  have hne : w1.configFileUsed ≠ "" := by
    rw [hcfg, hused]
    split_ifs with hp
    · decide
    · exact hp
  refine ⟨initConfig, (Config_eq_ok_iff yaml _ _).2 ⟨hne, data, ?_, hrt _ _ hm⟩, ?_⟩
  · rw [hcfg, hused]
    exact hf
  · simp [initConfig]

/-- The theorem `builtin_network_never_removed` on a machine with no file: after
`contract init config` and the commands of `sampleSession`, the file lists `decombine` and
`staging`, with `staging` as the default. -/
theorem builtin_network_never_removed_witness :
    ∃ c, Config sampleYAML (runCommands sampleYAML sampleSession
        (makeYAMLConfigFile sampleYAML "/home/u/.config/contract/contract.yaml" emptyWorld).2) =
      .ok c ∧ DecombineNetwork ∈ c.Networks :=
  builtin_network_never_removed sampleYAML sampleYAML_roundTrip
    "/home/u/.config/contract/contract.yaml" emptyWorld
    (makeYAMLConfigFile sampleYAML "/home/u/.config/contract/contract.yaml" emptyWorld).2
    (by decide) rfl sampleSession

/-! ## The first entry with a given name -/

/-- The first entry with the name splits the list: the entries before it have other names. -/
theorem firstNamed_eq_some (name : String) (networks : List Network) (n : Network)
    (h : firstNamed name networks = some n) :
    ∃ before after, networks = before ++ n :: after ∧ n.Name = name ∧
      ∀ m ∈ before, m.Name ≠ name := by
  induction networks with
  | nil => simp [firstNamed] at h
  | cons a rest ih =>
    by_cases ha : a.Name = name
    · have : a = n := by simpa [firstNamed, List.find?, ha] using h
      subst this
      exact ⟨[], rest, rfl, ha, by simp⟩
    · have h1 : firstNamed name rest = some n := by
        simpa [firstNamed, List.find?, ha] using h
      obtain ⟨before, after, hsplit, hn, hbefore⟩ := ih h1
      refine ⟨a :: before, after, by simp [hsplit], hn, ?_⟩
      intro m hm
      rcases List.mem_cons.1 hm with rfl | hm
      · exact ha
      · exact hbefore m hm

/-- There is a first entry with the name exactly when some entry bears it. -/
theorem firstNamed_isSome_iff (name : String) (networks : List Network) :
    (∃ n, firstNamed name networks = some n) ↔ ∃ n ∈ networks, n.Name = name := by
  constructor
  · rintro ⟨n, h⟩
    obtain ⟨before, after, hsplit, hn, _⟩ := firstNamed_eq_some name networks n h
    exact ⟨n, by simp [hsplit], hn⟩
  · rintro ⟨n, hn, hname⟩
    cases hf : firstNamed name networks with
    | some m => exact ⟨m, rfl⟩
    | none =>
      have := List.find?_eq_none.1 hf n hn
      simp [hname] at this

/-- The loop of `networkDetails` returns the first entry with the name. -/
theorem networkDetailsLoop_eq (name : String) (networks : List Network) :
    networkDetailsLoop name networks =
      match firstNamed name networks with
      | some n => .ok n
      | none => .error (.errorf ("network " ++ name ++ " not found")) := by
  induction networks with
  | nil => rfl
  | cons a rest ih =>
    by_cases ha : a.Name = name
    · simp [networkDetailsLoop, firstNamed, List.find?, ha]
    · simp only [networkDetailsLoop, if_neg ha, ih]
      simp [firstNamed, List.find?, ha]

/-- The loop of `defaultNetwork` returns the first entry with the default name. -/
theorem defaultNetworkLoop_eq (name : String) (networks : List Network) :
    defaultNetworkLoop name networks =
      match firstNamed name networks with
      | some n => .ok n
      | none => .error (.errorf "default network not found") := by
  induction networks with
  | nil => rfl
  | cons a rest ih =>
    by_cases ha : a.Name = name
    · simp [defaultNetworkLoop, firstNamed, List.find?, ha]
    · simp only [defaultNetworkLoop, if_neg ha, ih]
      simp [firstNamed, List.find?, ha]

/-- On a configuration that loads, `networkDetails` with a non-empty name returns the first
entry with the name; without one it returns an error. -/
theorem networkDetails_of_Config (yaml : YAML) (w : World) (c : ContractCLIConfig)
    (name : String) (hload : Config yaml w = .ok c) (hne : name ≠ "") :
    networkDetails yaml name w =
      match firstNamed name c.Networks with
      | some n => .ok n
      | none =>
        .error (if c.Networks.length = 0
          then .errorf "no networks configured. please configure a network first"
          else .errorf ("network " ++ name ++ " not found")) := by
  unfold networkDetails
  simp only [if_neg hne, hload]
  by_cases hlen : c.Networks.length = 0
  · have hnil : c.Networks = [] := List.length_eq_zero.1 hlen
    simp [hnil, firstNamed]
  · simp only [if_neg hlen, networkDetailsLoop_eq]

/-! ## C11: setting the default network -/

/-- The loop of `setNetworkExecute` stops at the first entry with the name: it records the entry
in viper, loads the configuration, sets its default network and writes it back. -/
theorem setNetworkLoop_found (yaml : YAML) (name : String) (networks : List Network) (w : World)
    (n : Network) (h : firstNamed name networks = some n) :
    setNetworkLoop yaml name networks w =
      match Config yaml
        (viper.Set "network" (.string n.Name) (viper.Set "defaultNetwork" (.network n) w)) with
      | .error err =>
        (some err,
          viper.Set "network" (.string n.Name) (viper.Set "defaultNetwork" (.network n) w))
      | .ok cfg =>
        UpdateConfig yaml w.configFileUsed { cfg with DefaultNetwork := n.Name }
          (viper.Set "network" (.string n.Name) (viper.Set "defaultNetwork" (.network n) w)) := by
  induction networks with
  | nil => simp [firstNamed] at h
  | cons a rest ih =>
    by_cases ha : a.Name = name
    · have : a = n := by simpa [firstNamed, List.find?, ha] using h
      subst this
      simp only [setNetworkLoop, if_pos ha]
      rfl
    · have h1 : firstNamed name rest = some n := by
        simpa [firstNamed, List.find?, ha] using h
      simp only [setNetworkLoop, if_neg ha]
      exact ih h1

/-- C11 (as stated, false): with no configuration file, `Networks()` is the built-in network
alone, yet `setNetworkExecute "decombine"` fails because `Config` cannot read the file; and on a
document that has a network without a name, the empty name is the name of an element of
`Networks()`, yet `setNetworkExecute ""` fails because the name is required. -/
theorem setNetworkExecute_fails_on_listed_name :
    ((∃ n ∈ Networks sampleYAML emptyWorld, n.Name = "decombine") ∧
      (setNetworkExecute sampleYAML "decombine" emptyWorld).1 =
        some (.wrap "error reading config file"
          (.path "open" "/home/u/.config/contract/contract.yaml"))) ∧
    ((∃ n ∈ Networks edgeYAML (worldWith "networks: [decombine, nameless]"), n.Name = "") ∧
      (setNetworkExecute edgeYAML "" (worldWith "networks: [decombine, nameless]")).1 =
        some (.errorf "network name is required")) := by
  decide

/-- C11 (amended): for every non-empty name that is the name of some element of `Networks()`,
let `n` be the first such element.  When the configuration loads as `c`, the document with the
new default can be encoded and the file written, `setNetworkExecute` returns no error, records
`n` in viper, and the configuration file then holds the encoding of a document with
`DefaultNetwork = name` and the language, default contract file type and networks of `c`.  When
the configuration does not load, `setNetworkExecute` returns the error of `Config` and persists
nothing: it records `n` in viper, and every file is as it was. -/
theorem setNetworkExecute_sets_default (yaml : YAML) (w : World) (name : String)
    (hne : name ≠ "") (hmem : ∃ n ∈ Networks yaml w, n.Name = name) :
    ∃ n, firstNamed name (Networks yaml w) = some n ∧
      (∀ c data, Config yaml w = .ok c →
        yaml.Marshal { c with DefaultNetwork := name } = .ok data →
        w.readOnly w.configFileUsed = false →
        setNetworkExecute yaml name w =
          (none, (viper.Set "network" (.string name)
            (viper.Set "defaultNetwork" (.network n) w)).put w.configFileUsed data) ∧
        (setNetworkExecute yaml name w).2.files = (w.put w.configFileUsed data).files ∧
        (setNetworkExecute yaml name w).2.configFileUsed = w.configFileUsed ∧
        ∃ c1 : ContractCLIConfig, c1.DefaultNetwork = name ∧ c1.Language = c.Language ∧
          c1.DefaultContractFileType = c.DefaultContractFileType ∧ c1.Networks = c.Networks ∧
          yaml.Marshal c1 = .ok data ∧
          (yaml.RoundTrip → Config yaml (setNetworkExecute yaml name w).2 = .ok c1)) ∧
      (∀ e, Config yaml w = .error e →
        setNetworkExecute yaml name w =
          (some e, viper.Set "network" (.string name)
            (viper.Set "defaultNetwork" (.network n) w)) ∧
        (setNetworkExecute yaml name w).2.files = w.files) := by
  obtain ⟨n, hfirst⟩ := (firstNamed_isSome_iff name (Networks yaml w)).2 hmem
  obtain ⟨_, _, _, hn, _⟩ := firstNamed_eq_some name _ n hfirst
  subst hn
  refine ⟨n, hfirst, ?_⟩
  have hloop := setNetworkLoop_found yaml n.Name (Networks yaml w) w n hfirst
  have hcongr : Config yaml
      (viper.Set "network" (.string n.Name) (viper.Set "defaultNetwork" (.network n) w)) =
      Config yaml w := Config_congr yaml w _ rfl rfl
  have hexec : setNetworkExecute yaml n.Name w =
      setNetworkLoop yaml n.Name (Networks yaml w) w := by
    unfold setNetworkExecute
    rw [if_neg hne]
  rw [hexec, hloop, hcongr]
  constructor
  · intro c data hload hmarshal hwrite
    obtain ⟨hcfg, data0, hf0, _⟩ := (Config_eq_ok_iff yaml w c).1 hload
    have hf2 : (viper.Set "network" (.string n.Name)
        (viper.Set "defaultNetwork" (.network n) w)).files w.configFileUsed = some data0 := hf0
    have hro : (viper.Set "network" (.string n.Name)
        (viper.Set "defaultNetwork" (.network n) w)).readOnly w.configFileUsed = false := hwrite
    simp only [hload, UpdateConfig, os.ReadFile, hf2, hmarshal, os.WriteFile, hro,
      Bool.false_eq_true, if_false]
    refine ⟨trivial, rfl, rfl, { c with DefaultNetwork := n.Name }, rfl, rfl, rfl, rfl,
      hmarshal, ?_⟩
    intro hrt
    exact (Config_eq_ok_iff yaml _ _).2 ⟨hcfg, data, put_files_same _ _ _, hrt _ _ hmarshal⟩
  · intro e herr
    simp only [herr]
    exact ⟨trivial, rfl⟩

/-- The theorem `setNetworkExecute_sets_default` on the configuration that lists `decombine` and
`staging`: `staging` becomes the default. -/
theorem setNetworkExecute_sets_default_witness :
    (setNetworkExecute sampleYAML "staging" (worldWith "networks: [decombine, staging]")).1 =
      none ∧
    (setNetworkExecute sampleYAML "staging" (worldWith "networks: [decombine, staging]")).2.files
        "/home/u/.config/contract/contract.yaml" = some "defaultNetwork: staging" := by
  obtain ⟨n, _, hloaded, _⟩ := setNetworkExecute_sets_default sampleYAML
    (worldWith "networks: [decombine, staging]") "staging" (by decide) (by decide)
  have h := hloaded stagingConfig "defaultNetwork: staging" (by decide) (by decide) (by decide)
  refine ⟨by rw [h.1], ?_⟩
  rw [h.2.1]
  decide

/-! ## C12: `networkDetails` and `Networks` -/

/-- C12 (as stated, false): with no configuration file, `Networks()` is exactly the built-in
network, yet `networkDetails "decombine"` fails with the error of `Config`. -/
theorem networkDetails_fails_without_config :
    Networks sampleYAML emptyWorld = [DecombineNetwork] ∧
    (∃ n ∈ Networks sampleYAML emptyWorld, n.Name = "decombine") ∧
    networkDetails sampleYAML "decombine" emptyWorld =
      .error (.wrap "error reading config file"
        (.path "open" "/home/u/.config/contract/contract.yaml")) := by
  decide

/-- C12 (amended): for every non-empty name, when the configuration loads, `networkDetails`
succeeds exactly when some element of `Networks()` bears the name, and then returns the first
such element; when the configuration does not load, `networkDetails` returns the error of
`Config`, whereas `Networks()` is the built-in network alone. -/
theorem networkDetails_agrees_when_loaded (yaml : YAML) (w : World) (name : String)
    (hne : name ≠ "") :
    (∀ c, Config yaml w = .ok c →
      ((∃ n, networkDetails yaml name w = .ok n) ↔ ∃ n ∈ Networks yaml w, n.Name = name) ∧
      (∀ n, networkDetails yaml name w = .ok n →
        ∃ before after, Networks yaml w = before ++ n :: after ∧ n.Name = name ∧
          ∀ m ∈ before, m.Name ≠ name)) ∧
    (∀ e, Config yaml w = .error e →
      networkDetails yaml name w = .error e ∧ Networks yaml w = [DecombineNetwork]) := by
  constructor
  · intro c hload
    rw [Networks_of_Config yaml w c hload, networkDetails_of_Config yaml w c name hload hne,
      ← firstNamed_isSome_iff]
    cases hf : firstNamed name c.Networks with
    | none => simp
    | some n0 =>
      refine ⟨by simp, ?_⟩
      intro n h
      have : n0 = n := by simpa using h
      subst this
      exact firstNamed_eq_some name c.Networks n0 hf
  · intro e herr
    constructor
    · unfold networkDetails
      simp only [if_neg hne, herr]
    · unfold Config viper.ConfigFileUsed os.ReadFile at herr
      unfold Networks viper.ConfigFileUsed os.ReadFile
      by_cases hcfg : w.configFileUsed = ""
      · simp [hcfg]
      · cases hf : w.files w.configFileUsed with
        | none => simp [hcfg, hf]
        | some data =>
          cases hu : yaml.Unmarshal data with
          | error err => simp [hcfg, hf, hu]
          | ok c => simp [hcfg, hf, hu] at herr

/-- The theorem `networkDetails_agrees_when_loaded` on the configuration that lists `decombine`
and `staging`: resolving `staging` succeeds, as the list says. -/
theorem networkDetails_agrees_when_loaded_witness :
    (∃ n, networkDetails sampleYAML "staging" (worldWith "networks: [decombine, staging]") =
      .ok n) ↔
    ∃ n ∈ Networks sampleYAML (worldWith "networks: [decombine, staging]"), n.Name = "staging" :=
  ((networkDetails_agrees_when_loaded sampleYAML (worldWith "networks: [decombine, staging]")
    "staging" (by decide)).1 stagingConfig (by decide)).1

/-! ## C13: resolving a network on a loaded configuration -/

/-- C13: on a configuration `c` that loads, `networkDetails ""` returns the built-in network;
for a non-empty name that some entry of `c` bears, `networkDetails` returns the first such
entry as it is; for a non-empty name that no entry bears, it returns an error. -/
theorem networkDetails_resolves (yaml : YAML) (w : World) (c : ContractCLIConfig)
    (hload : Config yaml w = .ok c) :
    networkDetails yaml "" w = .ok DecombineNetwork ∧
    (∀ name, name ≠ "" → (∃ n ∈ c.Networks, n.Name = name) →
      ∃ before n after, c.Networks = before ++ n :: after ∧ n.Name = name ∧
        (∀ m ∈ before, m.Name ≠ name) ∧ networkDetails yaml name w = .ok n) ∧
    (∀ name, name ≠ "" → (∀ n ∈ c.Networks, n.Name ≠ name) →
      ∃ e, networkDetails yaml name w = .error e) := by
  refine ⟨rfl, ?_, ?_⟩
  · intro name hne hmem
    obtain ⟨n, hfirst⟩ := (firstNamed_isSome_iff name c.Networks).2 hmem
    obtain ⟨before, after, hsplit, hn, hbefore⟩ := firstNamed_eq_some name c.Networks n hfirst
    refine ⟨before, n, after, hsplit, hn, hbefore, ?_⟩
    rw [networkDetails_of_Config yaml w c name hload hne, hfirst]
  · intro name hne habsent
    have hnone : firstNamed name c.Networks = none := by
      cases hf : firstNamed name c.Networks with
      | none => rfl
      | some n =>
        obtain ⟨m, hm, hmn⟩ := (firstNamed_isSome_iff name c.Networks).1 ⟨n, hf⟩
        exact absurd hmn (habsent m hm)
    rw [networkDetails_of_Config yaml w c name hload hne, hnone]
    exact ⟨_, rfl⟩

/-- The theorem `networkDetails_resolves` on the configuration that lists `decombine` and
`staging` with `staging` as the default: the empty name resolves to the built-in network. -/
theorem networkDetails_resolves_witness :
    networkDetails sampleYAML "" (worldWith "defaultNetwork: staging") = .ok DecombineNetwork :=
  (networkDetails_resolves sampleYAML (worldWith "defaultNetwork: staging") stagingDefaultConfig
    (by decide)).1

/-! ## C14: removing the default network -/

/-- The edge YAML library decodes what it encodes. -/
theorem edgeYAML_roundTrip : edgeYAML.RoundTrip := by
  intro c data h
  simp only [edgeYAML] at h
  split_ifs at h <;> cases h <;> subst_vars <;> decide

/-- On a configuration that loads, with a non-empty name other than the reserved one,
`removeNetworkExecute` encodes the document without the first entry of that name and writes it
to the configuration path. -/
theorem removeNetworkExecute_of_Config (yaml : YAML) (w : World) (c : ContractCLIConfig)
    (name : String) (hload : Config yaml w = .ok c) (hne : name ≠ "")
    (hname : name ≠ "decombine") :
    removeNetworkExecute yaml name w =
      match yaml.Marshal
        { c with Networks := c.Networks.eraseP (fun n => decide (n.Name = name)) } with
      | .error err => (some err, w)
      | .ok data => os.WriteFile w.configFileUsed data w := by
  unfold removeNetworkExecute
  simp only [if_neg hne, Networks_of_Config yaml w c hload, removeLoop_zero name hname]
  exact writeNetworks_of_Config yaml w c _ hload

/-- When exactly one entry bears the name, no entry bears it after the first one is deleted. -/
theorem firstNamed_eraseP_of_countP_one (name : String) (networks : List Network)
    (hone : networks.countP (fun n => decide (n.Name = name)) = 1) :
    firstNamed name (networks.eraseP (fun n => decide (n.Name = name))) = none := by
  induction networks with
  | nil => rfl
  | cons a rest ih =>
    by_cases ha : a.Name = name
    · have hrest : rest.countP (fun n => decide (n.Name = name)) = 0 := by
        simpa [List.countP_cons, ha] using hone
      have hnone : ∀ m ∈ rest, ¬ m.Name = name := by
        simpa [List.countP_eq_zero] using hrest
      simp only [List.eraseP_cons, ha, decide_True, cond_true]
      exact List.find?_eq_none.2 (fun m hm => by simpa using hnone m hm)
    · have hrest : rest.countP (fun n => decide (n.Name = name)) = 1 := by
        simpa [List.countP_cons, ha] using hone
      simp only [List.eraseP_cons, ha, decide_False, cond_false]
      simpa [firstNamed, List.find?, ha] using ih hrest

/-- The function `defaultNetwork` on a configuration that loads: the first entry named by
`DefaultNetwork`, or the default-network-not-found error. -/
theorem defaultNetwork_of_Config (yaml : YAML) (w : World) (c : ContractCLIConfig)
    (hload : Config yaml w = .ok c) :
    defaultNetwork yaml w =
      match firstNamed c.DefaultNetwork c.Networks with
      | some n => .ok n
      | none => .error (.errorf "default network not found") := by
  unfold defaultNetwork
  simp only [hload, defaultNetworkLoop_eq]

/-- C14 (as stated, false): the document has no default network set and one network without a
name, so `DefaultNetwork`, the empty string, names exactly one entry and is not `decombine`;
`removeNetworkExecute` with that name fails because the name is required. -/
theorem removeNetworkExecute_default_empty_name :
    Config edgeYAML (worldWith "networks: [decombine, nameless]") = .ok namelessConfig ∧
    namelessConfig.Networks.countP (fun n => decide (n.Name = namelessConfig.DefaultNetwork)) =
      1 ∧
    namelessConfig.DefaultNetwork ≠ "decombine" ∧
    (removeNetworkExecute edgeYAML namelessConfig.DefaultNetwork
      (worldWith "networks: [decombine, nameless]")).1 =
      some (.errorf "network name is required") := by
  decide

/-- C14 (amended): on a configuration `c` that loads and whose `DefaultNetwork` is not empty, is
not `decombine` and names exactly one entry, when the new document can be encoded and the file
written (by a YAML library that decodes what it encodes), `removeNetworkExecute` with that name
returns no error, the document then loaded has the same `DefaultNetwork`, and `defaultNetwork`
fails with the default-network-not-found error.  On every configuration that loads,
`defaultNetwork` succeeds exactly when some entry is named by `DefaultNetwork`, and returns the
first such entry. -/
theorem removeNetworkExecute_default_then_defaultNetwork (yaml : YAML) (w : World)
    (c : ContractCLIConfig) (data : String) (hrt : yaml.RoundTrip)
    (hload : Config yaml w = .ok c) (hne : c.DefaultNetwork ≠ "")
    (hname : c.DefaultNetwork ≠ "decombine")
    (hone : c.Networks.countP (fun n => decide (n.Name = c.DefaultNetwork)) = 1)
    (hmarshal : yaml.Marshal
      { c with Networks := c.Networks.eraseP (fun n => decide (n.Name = c.DefaultNetwork)) } =
        .ok data)
    (hwrite : w.readOnly w.configFileUsed = false) :
    removeNetworkExecute yaml c.DefaultNetwork w = (none, w.put w.configFileUsed data) ∧
    (∃ c1, Config yaml (w.put w.configFileUsed data) = .ok c1 ∧
      c1.DefaultNetwork = c.DefaultNetwork) ∧
    defaultNetwork yaml (w.put w.configFileUsed data) =
      .error (.errorf "default network not found") ∧
    (∀ (w2 : World) (c2 : ContractCLIConfig), Config yaml w2 = .ok c2 →
      ((∃ n, defaultNetwork yaml w2 = .ok n) ↔ ∃ n ∈ c2.Networks, n.Name = c2.DefaultNetwork) ∧
      (∀ n, defaultNetwork yaml w2 = .ok n →
        ∃ before after, c2.Networks = before ++ n :: after ∧ n.Name = c2.DefaultNetwork ∧
          ∀ m ∈ before, m.Name ≠ c2.DefaultNetwork)) := by
  have hcfg := ((Config_eq_ok_iff yaml w c).1 hload).1
  have hload1 := Config_put yaml hrt w _ data hcfg hmarshal
  refine ⟨?_, ⟨_, hload1, rfl⟩, ?_, ?_⟩
  · rw [removeNetworkExecute_of_Config yaml w c _ hload hne hname, hmarshal]
    simp [os.WriteFile, hwrite]
  · rw [defaultNetwork_of_Config yaml _ _ hload1]
    simp only [firstNamed_eraseP_of_countP_one c.DefaultNetwork c.Networks hone]
  · intro w2 c2 hload2
    rw [defaultNetwork_of_Config yaml w2 c2 hload2, ← firstNamed_isSome_iff]
    cases hf : firstNamed c2.DefaultNetwork c2.Networks with
    | none => simp
    | some n0 =>
      refine ⟨by simp, ?_⟩
      intro n h
      have : n0 = n := by simpa using h
      subst this
      exact firstNamed_eq_some c2.DefaultNetwork c2.Networks n0 hf

/-- The theorem `removeNetworkExecute_default_then_defaultNetwork` on the configuration that
lists `decombine` and `staging` with `staging` as the default: after the removal of `staging`
the default network is not found. -/
theorem removeNetworkExecute_default_then_defaultNetwork_witness :
    defaultNetwork edgeYAML
      ((worldWith "defaultNetwork: staging").put
        (worldWith "defaultNetwork: staging").configFileUsed
        "defaultNetwork: staging, networks: [decombine]") =
      .error (.errorf "default network not found") :=
  (removeNetworkExecute_default_then_defaultNetwork edgeYAML
    (worldWith "defaultNetwork: staging") stagingDefaultConfig
    "defaultNetwork: staging, networks: [decombine]" edgeYAML_roundTrip
    (by decide) (by decide) (by decide) (by decide) (by decide) (by decide)).2.2.1

/-! ## C15: the initial configuration file -/

/-- C15: for every path, when `makeYAMLConfigFile` returns no error, the file at the path
(`contract.yaml` when the path is empty) holds the encoding of a document whose network list
is exactly the built-in network and whose default network is the name of that entry, so that
the default names a member of the list; what the file held before is gone, and no other file
changes. -/
theorem makeYAMLConfigFile_writes_builtin (yaml : YAML) (path : String) (w w1 : World)
    (hinit : makeYAMLConfigFile yaml path w = (none, w1)) :
    ∃ (c : ContractCLIConfig) (data : String),
      c.Networks = [DecombineNetwork] ∧ c.DefaultNetwork = DecombineNetwork.Name ∧
      (∃ n ∈ c.Networks, n.Name = c.DefaultNetwork) ∧
      yaml.Marshal c = .ok data ∧
      w1.files (if path = "" then "contract.yaml" else path) = some data ∧
      (∀ q, q ≠ (if path = "" then "contract.yaml" else path) → w1.files q = w.files q) := by
  unfold makeYAMLConfigFile os.Create at hinit
  simp only [] at hinit
  by_cases hro : w.readOnly (if path = "" then "contract.yaml" else path)
  · simp [hro] at hinit
  · simp only [hro, Bool.false_eq_true, if_false, List.nil_append] at hinit
    cases hm : yaml.Marshal initConfig with
    | error err =>
      simp only [initConfig] at hm
      simp [hm] at hinit
    | ok data =>
      have hm1 := hm
      simp only [initConfig] at hm1
      simp only [hm1, os.Write, put_files_same, String.empty_append, Prod.mk.injEq,
        true_and] at hinit
      refine ⟨initConfig, data, rfl, rfl, ⟨DecombineNetwork, by simp [initConfig], rfl⟩, hm,
        ?_, ?_⟩
      · rw [← hinit]
        exact put_files_same _ _ _
      · intro q hq
        rw [← hinit, put_files_other _ _ _ _ hq, put_files_other _ _ _ _ hq]

/-- The theorem `makeYAMLConfigFile_writes_builtin` on a machine whose configuration file holds
another document: the initial document replaces it. -/
theorem makeYAMLConfigFile_writes_builtin_witness :
    ∃ (c : ContractCLIConfig) (data : String),
      c.Networks = [DecombineNetwork] ∧ c.DefaultNetwork = DecombineNetwork.Name ∧
      (∃ n ∈ c.Networks, n.Name = c.DefaultNetwork) ∧
      sampleYAML.Marshal c = .ok data ∧
      (makeYAMLConfigFile sampleYAML "/home/u/.config/contract/contract.yaml"
        (worldWith "networks: [decombine, staging]")).2.files
        (if "/home/u/.config/contract/contract.yaml" = "" then "contract.yaml"
          else "/home/u/.config/contract/contract.yaml") = some data ∧
      (∀ q, q ≠ (if "/home/u/.config/contract/contract.yaml" = "" then "contract.yaml"
          else "/home/u/.config/contract/contract.yaml") →
        (makeYAMLConfigFile sampleYAML "/home/u/.config/contract/contract.yaml"
          (worldWith "networks: [decombine, staging]")).2.files q =
        (worldWith "networks: [decombine, staging]").files q) :=
  makeYAMLConfigFile_writes_builtin sampleYAML "/home/u/.config/contract/contract.yaml"
    (worldWith "networks: [decombine, staging]")
    (makeYAMLConfigFile sampleYAML "/home/u/.config/contract/contract.yaml"
      (worldWith "networks: [decombine, staging]")).2 rfl

/-! ## C16: a failed device flow stores nothing -/

/-- The function `loginDeviceFlow` resolves the network and runs the device flow against its
issuer and client identifier. -/
theorem loginDeviceFlow_eq (yaml : YAML) (rp : RP) (name : String) (w : World) :
    loginDeviceFlow yaml rp name w =
      match networkDetails yaml name w with
      | .error err => .error err
      | .ok network => deviceFlowWith rp network.Issuer network.ClientID := by
  unfold loginDeviceFlow deviceFlowWith
  rfl

/-- C16: with the provider as three functions that return a value or an error, every failure
of the device flow (the network does not resolve, the relying party cannot be built, the device
authorization request fails, the token endpoint ends with a denial, an expiry or a
cancellation) makes `loginDeviceFlow` return that error; when `loginDeviceFlow` returns an
error, `loginExecute` returns it and the world is unchanged; `loginExecute` is
`storeResponse name token` only when `loginDeviceFlow` has returned `token`; and without a name
or without the device flow the world is unchanged. -/
theorem loginExecute_stores_only_on_success (yaml : YAML) (json : JSON) (rp : RP)
    (deviceFlow : Bool) (name : String) (w : World) :
    (∀ e, name ≠ "" → deviceFlow = true → loginDeviceFlow yaml rp name w = .error e →
      loginExecute yaml json rp deviceFlow name w = (some e, w)) ∧
    (∀ token, name ≠ "" → deviceFlow = true → loginDeviceFlow yaml rp name w = .ok token →
      loginExecute yaml json rp deviceFlow name w = storeResponse json name token w) ∧
    ((name = "" ∨ deviceFlow = false) → (loginExecute yaml json rp deviceFlow name w).2 = w) ∧
    ((loginExecute yaml json rp deviceFlow name w).2 ≠ w →
      ∃ token, loginDeviceFlow yaml rp name w = .ok token ∧
        loginExecute yaml json rp deviceFlow name w = storeResponse json name token w) ∧
    (∀ e, networkDetails yaml name w = .error e → loginDeviceFlow yaml rp name w = .error e) ∧
    (∀ n e, networkDetails yaml name w = .ok n →
      rp.NewRelyingPartyOIDC n.Issuer n.ClientID "" "" scopes = .error e →
      loginDeviceFlow yaml rp name w = .error e) ∧
    (∀ n provider e, networkDetails yaml name w = .ok n →
      rp.NewRelyingPartyOIDC n.Issuer n.ClientID "" "" scopes = .ok provider →
      rp.DeviceAuthorization scopes provider = .error e →
      loginDeviceFlow yaml rp name w = .error e) ∧
    (∀ n provider resp e, networkDetails yaml name w = .ok n →
      rp.NewRelyingPartyOIDC n.Issuer n.ClientID "" "" scopes = .ok provider →
      rp.DeviceAuthorization scopes provider = .ok resp →
      rp.DeviceAccessToken resp.DeviceCode (int64 (time.Duration resp.Interval * time.Second))
        provider = .error e →
      loginDeviceFlow yaml rp name w = .error e) := by
  have hstore : ∀ token, (match storeResponse json name token w with
      | (some err, w1) => (some err, w1)
      | (none, w1) => ((none : Option Error), w1)) = storeResponse json name token w := by
    intro token
    rcases hs : storeResponse json name token w with ⟨r, w1⟩
    cases r <;> rfl
  have hok : ∀ token, name ≠ "" → deviceFlow = true →
      loginDeviceFlow yaml rp name w = .ok token →
      loginExecute yaml json rp deviceFlow name w = storeResponse json name token w := by
    intro token hne hflow hlogin
    unfold loginExecute
    simp only [if_neg hne, hflow, if_true, hlogin]
    exact hstore token
  have herr : ∀ e, name ≠ "" → deviceFlow = true →
      loginDeviceFlow yaml rp name w = .error e →
      loginExecute yaml json rp deviceFlow name w = (some e, w) := by
    intro e hne hflow hlogin
    unfold loginExecute
    simp only [if_neg hne, hflow, if_true, hlogin]
  have hnone : (name = "" ∨ deviceFlow = false) →
      (loginExecute yaml json rp deviceFlow name w).2 = w := by
    intro h
    unfold loginExecute
    by_cases hne : name = ""
    · simp only [if_pos hne]
      cases Config yaml w <;> rfl
    · rcases h with h | h
      · exact absurd h hne
      · simp [hne, h]
  refine ⟨herr, hok, hnone, ?_, ?_, ?_, ?_, ?_⟩
  · intro hchanged
    by_cases hne : name = ""
    · exact absurd (hnone (Or.inl hne)) hchanged
    · by_cases hflow : deviceFlow = true
      · cases hlogin : loginDeviceFlow yaml rp name w with
        | error e =>
          rw [herr e hne hflow hlogin] at hchanged
          exact absurd rfl hchanged
        | ok token => exact ⟨token, rfl, hok token hne hflow hlogin⟩
      · exact absurd (hnone (Or.inr (by simpa using hflow))) hchanged
  · intro e h
    rw [loginDeviceFlow_eq, h]
  · intro n e hn h
    rw [loginDeviceFlow_eq, hn]
    simp only [deviceFlowWith, h]
  · intro n provider e hn hp h
    rw [loginDeviceFlow_eq, hn]
    simp only [deviceFlowWith, hp, h]
  · intro n provider resp e hn hp hr h
    rw [loginDeviceFlow_eq, hn]
    simp only [deviceFlowWith, hp, hr, h]

/-- The theorem `loginExecute_stores_only_on_success` with a provider where the user refuses the
request: `loginExecute` returns the denial and the world is unchanged. -/
theorem loginExecute_stores_only_on_success_witness :
    loginExecute sampleYAML sampleJSON deniedRP true "staging"
      (worldWith "networks: [decombine, staging]") =
      (some (.errorf "access_denied"), worldWith "networks: [decombine, staging]") :=
  (loginExecute_stores_only_on_success sampleYAML sampleJSON deniedRP true "staging"
    (worldWith "networks: [decombine, staging]")).1 (.errorf "access_denied")
    (by decide) rfl (by decide)

/-! ## C17: the polling of the device flow -/

/-- A duration that fits in 64 bits is not changed by the wrap-around. -/
theorem int64_of_bounds (x : Int) (h0 : 0 ≤ x) (h1 : x < 9223372036854775808) : int64 x = x := by
  unfold int64
  omega

/-- The wait between two polls is at least the interval in seconds, as long as the nanoseconds
of the interval fit in 64 bits; a negative interval asks for nothing. -/
theorem interval_le_wait (seconds : Int) (hbound : seconds * 1000000000 < 9223372036854775808) :
    seconds * time.Second ≤ max (int64 (time.Duration seconds * time.Second)) 0 := by
  unfold time.Second
  by_cases hpos : 0 ≤ seconds
  · have h1 : time.Duration seconds = seconds := by
      unfold time.Duration
      exact int64_of_bounds _ hpos (by omega)
    rw [h1, int64_of_bounds _ (by omega) hbound]
    exact le_max_left _ _
  · have h0 := le_max_right (int64 (time.Duration seconds * 1000000000)) 0
    omega

/-- The polling loop from poll number `attempt` at time `clock`, when the endpoint answers
authorization pending to the next `N` polls and then gives a token: `N + 1` polls, the first at
`clock`, each at least the wait after the one before, and the token of the last. -/
theorem pollDeviceAccessToken_pending_then_token (endpoint : Nat → PollAnswer)
    (interval d : Int) (hd : d ≤ max interval 0) (tok : AccessTokenResponse) (N : Nat) :
    ∀ (fuel attempt : Nat) (clock : Int),
      (∀ k, k < N → endpoint (attempt + k) = .pending) →
      endpoint (attempt + N) = .token tok → N + 1 ≤ fuel →
      ∃ times, pollDeviceAccessToken endpoint interval fuel attempt clock =
          some (.ok tok, clock :: times) ∧
        (clock :: times).length = N + 1 ∧
        List.Chain' (fun a b => a + d ≤ b) (clock :: times) := by
  induction N with
  | zero =>
    intro fuel attempt clock _ htoken hfuel
    obtain ⟨f, rfl⟩ : ∃ f, fuel = f + 1 := ⟨fuel - 1, by omega⟩
    refine ⟨[], ?_, rfl, List.chain'_singleton _⟩
    have h : endpoint attempt = .token tok := by simpa using htoken
    simp [pollDeviceAccessToken, h]
  | succ N ih =>
    intro fuel attempt clock hpending htoken hfuel
    obtain ⟨f, rfl⟩ : ∃ f, fuel = f + 1 := ⟨fuel - 1, by omega⟩
    have h0 : endpoint attempt = .pending := by simpa using hpending 0 (by omega)
    obtain ⟨times, hpoll, hlen, hchain⟩ := ih f (attempt + 1) (clock + max interval 0)
      (fun k hk => by
        have := hpending (k + 1) (by omega)
        rwa [show attempt + (k + 1) = attempt + 1 + k by omega] at this)
      (by rwa [show attempt + (N + 1) = attempt + 1 + N by omega] at htoken)
      (by omega)
    refine ⟨(clock + max interval 0) :: times, ?_, ?_, ?_⟩
    · simp [pollDeviceAccessToken, h0, hpoll]
    · simp only [List.length_cons] at hlen ⊢
      omega
    · refine List.Chain'.cons ?_ hchain
      omega

/-- Forgetting the observation of the polls gives `loginDeviceFlow`, for every provider: the two
functions make the same calls with the same arguments. -/
theorem loginDeviceFlowObserved_fst (yaml : YAML) (rp : ObservedRP) (name : String) (w : World) :
    loginDeviceFlow yaml rp.toRP name w = (loginDeviceFlowObserved yaml rp name w).1 := by
  unfold loginDeviceFlow loginDeviceFlowObserved ObservedRP.toRP
  cases networkDetails yaml name w with
  | error err => rfl
  | ok network =>
    simp only []
    cases rp.NewRelyingPartyOIDC network.Issuer network.ClientID "" "" scopes with
    | error err => rfl
    | ok provider =>
      simp only []
      cases rp.DeviceAuthorization scopes provider with
      | error err => rfl
      | ok resp =>
        simp only []
        rcases rp.DeviceAccessToken resp.DeviceCode
          (int64 (time.Duration resp.Interval * time.Second)) provider with ⟨r, polls⟩
        cases r <;> rfl

/-- C17 (as stated, false): with an interval of 9223372037 seconds the product
`time.Duration(resp.Interval)*time.Second` wraps around to a negative duration, so against an
endpoint that answers authorization pending once the two polls are made at the same time, not
9223372037 seconds apart; and for a name that does not resolve, `loginDeviceFlow` returns the
not-found error without a poll. -/
theorem loginDeviceFlow_polls_not_spaced :
    (loginDeviceFlowObserved sampleYAML (observedProvider overflowResponse oncePendingEndpoint 10)
        "staging" (worldWith "networks: [decombine, staging]") = (.ok tokenA, [0, 0]) ∧
      int64 (time.Duration overflowResponse.Interval * time.Second) = -9223372036709551616 ∧
      ¬ List.Chain' (fun a b => a + overflowResponse.Interval * time.Second ≤ b)
        ([0, 0] : List Int)) ∧
    loginDeviceFlowObserved sampleYAML (observedProvider sampleResponse sampleEndpoint 10)
        "ghost" (worldWith "networks: [decombine, staging]") =
      (.error (.errorf "network ghost not found"), []) := by
  refine ⟨⟨by decide, by decide, ?_⟩, by decide⟩
  simp [overflowResponse, time.Second]

/-- C17 (amended): take the polling loop of the provider as the specification describes it, a
name that `networkDetails` resolves, a token endpoint that answers authorization pending to the
first `N` polls and then gives `tok`, and an interval below 9223372037 seconds, so that its
nanoseconds fit in 64 bits.  Then the run of `loginDeviceFlow` makes exactly `N + 1` polls, each
at least `resp.Interval` seconds after the one before, and returns `tok`, the token of the last
poll. -/
theorem loginDeviceFlow_polls_until_token (yaml : YAML) (w : World) (name : String)
    (n : Network) (resp : DeviceAuthorizationResponse) (endpoint : Nat → PollAnswer)
    (tok : AccessTokenResponse) (N fuel : Nat)
    (hnet : networkDetails yaml name w = .ok n)
    (hbound : resp.Interval * 1000000000 < 9223372036854775808)
    (hpending : ∀ k, k < N → endpoint k = .pending) (htoken : endpoint N = .token tok)
    (hfuel : N + 1 ≤ fuel) :
    (∃ times,
      loginDeviceFlowObserved yaml (observedProvider resp endpoint fuel) name w =
        (.ok tok, times) ∧
      times.length = N + 1 ∧
      List.Chain' (fun a b => a + resp.Interval * time.Second ≤ b) times) ∧
    loginDeviceFlow yaml (observedProvider resp endpoint fuel).toRP name w = .ok tok ∧
    (∀ rp : ObservedRP,
      loginDeviceFlow yaml rp.toRP name w = (loginDeviceFlowObserved yaml rp name w).1) := by
  obtain ⟨times, hpoll, hlen, hchain⟩ :=
    pollDeviceAccessToken_pending_then_token endpoint
      (int64 (time.Duration resp.Interval * time.Second)) (resp.Interval * time.Second)
      (interval_le_wait resp.Interval hbound) tok N fuel 0 0
      (fun k hk => by simpa using hpending k hk) (by simpa using htoken) hfuel
  have hobserved : loginDeviceFlowObserved yaml (observedProvider resp endpoint fuel) name w =
      (.ok tok, 0 :: times) := by
    unfold loginDeviceFlowObserved
    simp only [hnet, observedProvider, hpoll]
  refine ⟨⟨0 :: times, hobserved, hlen, hchain⟩, ?_,
    fun rp => loginDeviceFlowObserved_fst yaml rp name w⟩
  rw [loginDeviceFlowObserved_fst, hobserved]

/-- The theorem `loginDeviceFlow_polls_until_token` with the sample endpoint, which answers
authorization pending twice, and an interval of five seconds: three polls, five seconds apart,
and `tokenA`. -/
theorem loginDeviceFlow_polls_until_token_witness :
    (∃ times,
      loginDeviceFlowObserved sampleYAML (observedProvider sampleResponse sampleEndpoint 10)
        "staging" (worldWith "networks: [decombine, staging]") = (.ok tokenA, times) ∧
      times.length = 2 + 1 ∧
      List.Chain' (fun a b => a + sampleResponse.Interval * time.Second ≤ b) times) ∧
    loginDeviceFlow sampleYAML (observedProvider sampleResponse sampleEndpoint 10).toRP "staging"
      (worldWith "networks: [decombine, staging]") = .ok tokenA :=
  have h := loginDeviceFlow_polls_until_token sampleYAML
    (worldWith "networks: [decombine, staging]") "staging" staging sampleResponse sampleEndpoint
    tokenA 2 10 (by decide) (by decide)
    (fun k hk => by
      have h : k = 0 ∨ k = 1 := by omega
      rcases h with rfl | rfl <;> rfl)
    rfl (by decide)
  ⟨h.1, h.2.1⟩

/-! ## C18: the values of `--contracts` -/

/-- With `--contract` unset and a non-empty list of `--contracts` values, `validateCmd.Run`
handles the first value and returns: the other values are never looked at. -/
theorem validateRun_multi (c : String) (rest args : List String) (stdin : String) (w : World) :
    validateRun "" (c :: rest) args stdin w = validateInput c w := by
  simp [validateRun, validateMultiLoop]

/-- C18 (the code does not do this): with two URLs given by two `--contracts` flags, only the
first is validated; the same two URLs given as positional arguments are both validated, in
order. -/
theorem validateRun_multi_validates_first_only :
    validateRun "" ["https://a.test/one.json", "https://a.test/two.json"] [] "" emptyWorld =
      [.validateURL "https://a.test/one.json"] ∧
    validateRun "" [] ["https://a.test/one.json", "https://a.test/two.json"] "" emptyWorld =
      [.validateURL "https://a.test/one.json", .validateURL "https://a.test/two.json"] := by
  decide

/-! ## C19: the issuer of a network added with `addNetwork` -/

/-- When `writeNetworks` returns no error, the configuration loaded, and the file holds the
encoding of the loaded document with the new network list. -/
theorem writeNetworks_eq_none (yaml : YAML) (networks : List Network) (w w1 : World)
    (h : writeNetworks yaml networks w = (none, w1)) :
    ∃ c data, Config yaml w = .ok c ∧
      yaml.Marshal { c with Networks := networks } = .ok data ∧
      w1 = w.put w.configFileUsed data := by
  cases hload : Config yaml w with
  | error e =>
    exfalso
    unfold Config viper.ConfigFileUsed os.ReadFile at hload
    unfold writeNetworks viper.ConfigFileUsed os.ReadFile at h
    by_cases hcfg : w.configFileUsed = ""
    · simp [hcfg] at h
    · cases hf : w.files w.configFileUsed with
      | none => simp [hcfg, hf] at h
      | some data =>
        cases hu : yaml.Unmarshal data with
        | error err => simp [hcfg, hf, hu] at h
        | ok c => simp [hcfg, hf, hu] at hload
  | ok c =>
    rw [writeNetworks_of_Config yaml w c networks hload] at h
    cases hm : yaml.Marshal { c with Networks := networks } with
    | error err => simp [hm] at h
    | ok data =>
      simp only [hm, os.WriteFile] at h
      by_cases hro : w.readOnly w.configFileUsed
      · simp [hro] at h
      · simp only [hro, Bool.false_eq_true, if_false, Prod.mk.injEq, true_and] at h
        exact ⟨c, data, rfl, hm, h.symm⟩

/-- The first entry with a name that no entry of the list bears, after an entry with that name
is appended, is the appended entry. -/
theorem firstNamed_append_fresh (name : String) (networks : List Network) (n : Network)
    (hfresh : ∀ m ∈ networks, m.Name ≠ name) (hn : n.Name = name) :
    firstNamed name (networks ++ [n]) = some n := by
  induction networks with
  | nil => simp [firstNamed, List.find?, hn]
  | cons a rest ih =>
    have ha : a.Name ≠ name := hfresh a (List.mem_cons_self _ _)
    have h := ih (fun m hm => hfresh m (List.mem_cons_of_mem _ hm))
    simpa [firstNamed, List.find?, ha] using h

/-- C19 (amended): whenever `addNetwork` returns no error, whatever its six arguments, the
configuration had loaded and the record appended to its network list has an empty `Issuer`: the `oidc`
argument, which is not empty, is stored in `DiscoveryEndpoint` only.  Consequently, with a YAML
library that decodes what it encodes and a name that no earlier entry bears, `networkDetails`
resolves the name to that record, and `loginDeviceFlow` runs the device flow with the empty
string as issuer, for every provider. -/
theorem addNetwork_stores_empty_issuer (yaml : YAML) (w w1 : World)
    (name api url clientID domain oidc : String)
    (hadd : addNetwork yaml name api url clientID domain oidc w = (none, w1)) :
    ∃ (c : ContractCLIConfig) (n : Network) (data : String),
      Config yaml w = .ok c ∧
      yaml.Marshal { c with Networks := c.Networks ++ [n] } = .ok data ∧
      w1 = w.put w.configFileUsed data ∧
      n.Name = name ∧ n.ClientID = clientID ∧ n.DiscoveryEndpoint = oidc ∧ oidc ≠ "" ∧
      n.Issuer = "" ∧ n.Issuer ≠ n.DiscoveryEndpoint ∧
      (yaml.RoundTrip → (∀ m ∈ c.Networks, m.Name ≠ name) →
        networkDetails yaml name w1 = .ok n ∧
        ∀ rp : RP, loginDeviceFlow yaml rp name w1 = deviceFlowWith rp "" clientID) := by
  cases hcheck : checkNetworkValues name api url clientID domain oidc with
  | some err =>
    unfold addNetwork at hadd
    simp [hcheck] at hadd
  | none =>
    obtain ⟨hname, _, _, _, _, hoidc⟩ := (checkNetworkValues_eq_none_iff _ _ _ _ _ _).1 hcheck
    have hadd1 : writeNetworks yaml
        (Networks yaml w ++ [newNetwork name api url clientID domain oidc]) w = (none, w1) := by
      unfold addNetwork at hadd
      simpa [hcheck, newNetwork] using hadd
    obtain ⟨c, data, hload, hmarshal, hw1⟩ := writeNetworks_eq_none yaml _ w w1 hadd1
    rw [Networks_of_Config yaml w c hload] at hmarshal
    refine ⟨c, newNetwork name api url clientID domain oidc, data, hload, hmarshal, hw1, rfl,
      rfl, rfl, hoidc, rfl, fun h => hoidc h.symm, ?_⟩
    intro hrt hfresh
    have hcfg := ((Config_eq_ok_iff yaml w c).1 hload).1
    have hload1 : Config yaml w1 = .ok
        { c with Networks := c.Networks ++ [newNetwork name api url clientID domain oidc] } := by
      rw [hw1]
      exact Config_put yaml hrt w _ data hcfg hmarshal
    have hdetails : networkDetails yaml name w1 =
        .ok (newNetwork name api url clientID domain oidc) := by
      rw [networkDetails_of_Config yaml w1 _ name hload1 hname]
      have hfirst := firstNamed_append_fresh name c.Networks
        (newNetwork name api url clientID domain oidc) hfresh rfl
      simp only [hfirst]
    refine ⟨hdetails, fun rp => ?_⟩
    rw [loginDeviceFlow_eq, hdetails]
    rfl

/-- The theorem `addNetwork_stores_empty_issuer` on the initial configuration, adding `staging`:
the record appended has an empty issuer. -/
theorem addNetwork_stores_empty_issuer_witness :
    ∃ (c : ContractCLIConfig) (n : Network) (data : String),
      Config sampleYAML (worldWith "networks: [decombine]") = .ok c ∧
      sampleYAML.Marshal { c with Networks := c.Networks ++ [n] } = .ok data ∧
      (addNetwork sampleYAML "staging" "https://api.staging.test" "https://staging.test" "42"
        "staging.test" "https://auth.staging.test/.well-known/openid-configuration"
        (worldWith "networks: [decombine]")).2 =
        (worldWith "networks: [decombine]").put
          (worldWith "networks: [decombine]").configFileUsed data ∧
      n.Name = "staging" ∧ n.ClientID = "42" ∧
      n.DiscoveryEndpoint = "https://auth.staging.test/.well-known/openid-configuration" ∧
      "https://auth.staging.test/.well-known/openid-configuration" ≠ "" ∧
      n.Issuer = "" ∧ n.Issuer ≠ n.DiscoveryEndpoint ∧
      (sampleYAML.RoundTrip → (∀ m ∈ c.Networks, m.Name ≠ "staging") →
        networkDetails sampleYAML "staging"
          (addNetwork sampleYAML "staging" "https://api.staging.test" "https://staging.test"
            "42" "staging.test" "https://auth.staging.test/.well-known/openid-configuration"
            (worldWith "networks: [decombine]")).2 = .ok n ∧
        ∀ rp : RP, loginDeviceFlow sampleYAML rp "staging"
          (addNetwork sampleYAML "staging" "https://api.staging.test" "https://staging.test"
            "42" "staging.test" "https://auth.staging.test/.well-known/openid-configuration"
            (worldWith "networks: [decombine]")).2 = deviceFlowWith rp "" "42") :=
  addNetwork_stores_empty_issuer sampleYAML (worldWith "networks: [decombine]")
    (addNetwork sampleYAML "staging" "https://api.staging.test" "https://staging.test" "42"
      "staging.test" "https://auth.staging.test/.well-known/openid-configuration"
      (worldWith "networks: [decombine]")).2
    "staging" "https://api.staging.test" "https://staging.test" "42" "staging.test"
    "https://auth.staging.test/.well-known/openid-configuration" rfl

/-! ## C9: a YAML library that cannot read what it wrote -/

/-- C9 (as stated, false): with a YAML library that writes the name `? x` as it is and cannot
read the text back, `makeYAMLConfigFile` succeeds, the following `addNetwork` with the name
`? x` and five other non-empty values succeeds, and the configuration file no longer loads: no
persisted network list contains the built-in network. -/
theorem builtin_network_lost_by_lossy_yaml :
    (makeYAMLConfigFile lossyYAML "/home/u/.config/contract/contract.yaml" emptyWorld).1 = none ∧
    (addNetwork lossyYAML "? x" "https://api.x.test" "https://x.test" "7" "x.test"
      "https://auth.x.test/.well-known/openid-configuration"
      (makeYAMLConfigFile lossyYAML "/home/u/.config/contract/contract.yaml" emptyWorld).2).1 =
      none ∧
    Config lossyYAML
      (runCommands lossyYAML
        [.add "? x" "https://api.x.test" "https://x.test" "7" "x.test"
          "https://auth.x.test/.well-known/openid-configuration"]
        (makeYAMLConfigFile lossyYAML "/home/u/.config/contract/contract.yaml" emptyWorld).2) =
      .error (.wrap "error unmarshalling config file" (.codec "cannot unmarshal")) ∧
    ¬ ∃ c, Config lossyYAML
      (runCommands lossyYAML
        [.add "? x" "https://api.x.test" "https://x.test" "7" "x.test"
          "https://auth.x.test/.well-known/openid-configuration"]
        (makeYAMLConfigFile lossyYAML "/home/u/.config/contract/contract.yaml" emptyWorld).2) =
      .ok c ∧ DecombineNetwork ∈ c.Networks := by
  have herr : Config lossyYAML
      (runCommands lossyYAML
        [.add "? x" "https://api.x.test" "https://x.test" "7" "x.test"
          "https://auth.x.test/.well-known/openid-configuration"]
        (makeYAMLConfigFile lossyYAML "/home/u/.config/contract/contract.yaml" emptyWorld).2) =
      .error (.wrap "error unmarshalling config file" (.codec "cannot unmarshal")) := by
    decide
  refine ⟨by decide, by decide, herr, ?_⟩
  rintro ⟨c, hc, _⟩
  rw [herr] at hc
  cases hc

/-! ## C19: a network that login does not reach -/

/-- C19 (as stated, false): a network created through `addNetwork` with the name `decombine`
comes after the built-in entry, so `loginDeviceFlow "decombine"` asks for the issuer of the
built-in network, which is not empty; and with a YAML library that cannot read back the
document it wrote, after a successful `addNetwork` with the name `? x`, `loginDeviceFlow "? x"`
returns the error of `Config` and builds no relying party. -/
theorem loginDeviceFlow_issuer_after_addNetwork :
    ((addNetwork shadowYAML "decombine" "https://api.other.test" "https://other.test" "9"
        "other.test" "https://auth.other.test/.well-known/openid-configuration"
        (worldWith "networks: [decombine]")).1 = none ∧
      loginDeviceFlow shadowYAML issuerProbeRP "decombine"
        (addNetwork shadowYAML "decombine" "https://api.other.test" "https://other.test" "9"
          "other.test" "https://auth.other.test/.well-known/openid-configuration"
          (worldWith "networks: [decombine]")).2 =
        .error (.errorf "issuer: https://auth.decombine.com")) ∧
    ((addNetwork lossyYAML "? x" "https://api.x.test" "https://x.test" "7" "x.test"
        "https://auth.x.test/.well-known/openid-configuration"
        (worldWith "networks: [decombine]")).1 = none ∧
      loginDeviceFlow lossyYAML issuerProbeRP "? x"
        (addNetwork lossyYAML "? x" "https://api.x.test" "https://x.test" "7" "x.test"
          "https://auth.x.test/.well-known/openid-configuration"
          (worldWith "networks: [decombine]")).2 =
        .error (.wrap "error unmarshalling config file" (.codec "cannot unmarshal"))) := by
  decide

end Contract
